import Mathlib

/-
Verification of the CelestiaValidator core (tokenizer + validating parser
engine) against its natural-language specification.

The development is a shallow embedding of src/celvalidate/tokenizer.py and
src/celvalidate/parser.py (plus the filename classifiers of
src/celvalidate/filenames.py that the engine's default string validator
uses).  Python data is modelled as follows:

* text lines are lists of `Char`; the tokenizer state carries the remaining
  unread lines, the current line, the scan position and the 1-based line
  number, exactly like the `Tokenizer` class attributes;
* machine numbers (`int`/`float` token values) are modelled as exact
  rationals; the claims under study only compare them with 0 and 1, where
  the exact decimal value and the IEEE double agree for the inputs involved;
* fallible code is modelled with explicit result types: `ParsingError`
  raising is a dedicated constructor, and uncaught Python exceptions
  (`TypeError`, `ValueError`, ...) are modelled by a `crash` constructor,
  because the source contains reachable statements that raise them
  (`output.write(None)` in `_read_string`, `element_count[0]` on an `int`
  in `_check_vector`);
* loops and recursion are modelled with an explicit fuel parameter; fuel
  exhaustion is a separate artificial outcome (`noFuel`) that the theorems
  either quantify over or avoid by using concrete fuel on concrete input.

In addition to the fields of the Python objects, the tokenizer state keeps
a ghost `trace` field recording the chronological order in which messages
were appended by either the tokenizer or the parser.  The trace is pure
instrumentation: no modelled function reads it, it only receives appends in
the same places where `messages` / `_messages` receive appends.  It is used
to state the diagnostic-ordering claim (report order versus emission order).
-/

namespace CelValidate

/-! ## Basic data model (tokenizer.py lines 15-94) -/

/-- `MessageLevel` from tokenizer.py. -/
inductive MessageLevel where
  | INFO
  | WARN
  | ERROR
deriving DecidableEq, Repr

/-- `ParsingMessage` from tokenizer.py: a leveled, positioned diagnostic. -/
structure ParsingMessage where
  line : Nat
  pos : Nat
  level : MessageLevel
  message : String
deriving DecidableEq, Repr

/-- `TokenKind` from tokenizer.py. -/
inductive TokenKind where
  | NAME
  | BOOLEAN
  | STRING
  | NUMBER
  | START_OBJECT
  | END_OBJECT
  | START_ARRAY
  | END_ARRAY
  | START_UNITS
  | END_UNITS
  | EQUALS
  | BAR
deriving DecidableEq, Repr

/-- `TokenValue = str | bool | int | float | None`; `int` and `float` are
merged into one exact rational constructor (see header comment). -/
inductive TokenValue where
  | none
  | str (s : String)
  | bool (b : Bool)
  | num (q : ℚ)
deriving DecidableEq, Repr

/-- `Token` from tokenizer.py. -/
structure Token where
  kind : TokenKind
  line : Nat
  pos : Nat
  value : TokenValue
deriving DecidableEq, Repr

/-- Uncaught Python exceptions that the modelled code can raise. -/
inductive PyExn where
  | typeError
  | valueError
  | unicodeEncodeError
  | indexError
  | runtimeError
deriving DecidableEq, Repr

/-- Which component appended a diagnostic (ghost instrumentation). -/
inductive Source where
  | lexer
  | engine
deriving DecidableEq, Repr

/-- One entry of the ghost chronological emission trace. -/
structure TraceEntry where
  src : Source
  msg : ParsingMessage
deriving DecidableEq, Repr

/-! ## Character helpers -/

/-- ASCII whitespace stripped by Python `str.rstrip` (the repository's
input is catalog text; non-ASCII whitespace is not modelled). -/
def pyIsSpace (c : Char) : Bool :=
  c == ' ' || c == '\t' || c == '\n' || c == '\x0d' || c == '\x0b' || c == '\x0c'

/-- Python `str.rstrip()` on a line. -/
def pyRstrip (l : List Char) : List Char :=
  (l.reverse.dropWhile pyIsSpace).reverse

/-- `[A-Za-z_]` (first character of `_NAME_REGEX`). -/
def isNameStart (c : Char) : Bool :=
  (c ≥ 'A' && c ≤ 'Z') || (c ≥ 'a' && c ≤ 'z') || c == '_'

/-- `[0-9A-Za-z_]` (continuation characters of `_NAME_REGEX`). -/
def isNameCont (c : Char) : Bool :=
  isNameStart c || (c ≥ '0' && c ≤ '9')

def isDigitChar (c : Char) : Bool :=
  c ≥ '0' && c ≤ '9'

/-- `[0-9a-fA-F]` as accepted by `int(_, 16)` and `_COLOR_REGEX`. -/
def isHexDigitChar (c : Char) : Bool :=
  isDigitChar c || (c ≥ 'a' && c ≤ 'f') || (c ≥ 'A' && c ≤ 'F')

def hexDigitVal (c : Char) : Nat :=
  if isDigitChar c then c.toNat - '0'.toNat
  else if c ≥ 'a' && c ≤ 'f' then c.toNat - 'a'.toNat + 10
  else c.toNat - 'A'.toNat + 10

/-- Python `int(text, 16)` on a short slice: optional surrounding ASCII
whitespace, optional sign, then at least one hex digit.  (Underscore
separators and a `0x` prefix, which CPython also accepts, do not occur in
the claims' inputs and are not modelled.) -/
def pyIntHex (cs : List Char) : Option Int :=
  let cs := (cs.dropWhile pyIsSpace).reverse.dropWhile pyIsSpace |>.reverse
  let signAndDigits : Int × List Char :=
    match cs with
    | '+' :: rest => (1, rest)
    | '-' :: rest => (-1, rest)
    | rest => (1, rest)
  match signAndDigits with
  | (sign, digits) =>
    if digits.isEmpty || !(digits.all isHexDigitChar) then none
    else some (sign * (Int.ofNat (digits.foldl (fun a c => a * 16 + hexDigitVal c) 0)))

/-- Python `repr` of a short string value as interpolated by the `!r`
format specifications in the source's f-strings.  The claims' inputs
contain no quotes or control characters, so no escaping is modelled. -/
def pyRepr (v : String) : String :=
  "'" ++ v ++ "'"

/-! ## Tokenizer state (tokenizer.py lines 97-110) -/

/-- The `Tokenizer` attributes: remaining unread lines of `f`, the current
line, scan position, line number and collected messages, plus the ghost
emission trace (see header). -/
structure TokState where
  lines : List (List Char)
  line : List Char
  pos : Nat
  lineNumber : Nat
  messages : List ParsingMessage
  trace : List TraceEntry
deriving DecidableEq, Repr

/-- `Tokenizer.__init__`: `line` starts empty, positions at zero. -/
def tokInit (input : List String) : TokState :=
  { lines := input.map String.toList
    line := []
    pos := 0
    lineNumber := 0
    messages := []
    trace := [] }

/-- The scan coordinate `(line_number, pos)` of a tokenizer state. -/
def scanKey (s : TokState) : Nat × Nat :=
  (s.lineNumber, s.pos)

/-- `Tokenizer._warn`: appends a WARN message at the current coordinate. -/
def twarn (s : TokState) (message : String) : TokState :=
  let m : ParsingMessage := ⟨s.lineNumber, s.pos, MessageLevel.WARN, message⟩
  { s with messages := s.messages ++ [m], trace := s.trace ++ [⟨Source.lexer, m⟩] }

/-- The message-append part of `Tokenizer._error` (the raise itself is the
`perror` result constructor at the call sites). -/
def terrAppend (s : TokState) (message : String) : TokState :=
  let m : ParsingMessage := ⟨s.lineNumber, s.pos, MessageLevel.ERROR, message⟩
  { s with messages := s.messages ++ [m], trace := s.trace ++ [⟨Source.lexer, m⟩] }

/-- `Tokenizer._read_line`: `none` models the `StopIteration` raised at end
of input; otherwise the next line is loaded, right-stripped, and the
coordinates advance. -/
def readLine (s : TokState) : Option TokState :=
  match s.lines with
  | [] => none
  | l :: rest =>
    some { s with lines := rest, line := pyRstrip l, pos := 0, lineNumber := s.lineNumber + 1 }

/-! ## Escape parsing (tokenizer.py lines 222-239)

`_parse_escape` returns a one-character string for the recognised escapes
`\"`, `\\` and `\n`.  The `'u'` arm computes `chr(int(hex4, 16)).encode()`
but the `match` arm ends without a `return` statement, so the function
falls through and returns `None` (the same value the `case _` arm returns
explicitly); `int` raises `ValueError` on non-hex digits, `chr` raises
`ValueError` outside `[0, 0x10FFFF]`, and `.encode('utf-8')` raises
`UnicodeEncodeError` on surrogates.  All of that is modelled verbatim. -/

inductive EscResult where
  | chr (s : TokState) (c : Char)
  | noChar (s : TokState)
  | perror (s : TokState)
  | crash (s : TokState) (e : PyExn)
deriving DecidableEq, Repr

def parseEscape (s : TokState) : EscResult :=
  if s.pos = s.line.length then
    EscResult.perror (terrAppend s "Unterminated escape sequence")
  else if h : s.pos < s.line.length then
    let c := s.line.get ⟨s.pos, h⟩
    let s1 : TokState := { s with pos := s.pos + 1 }
    if c = '"' ∨ c = '\\' then EscResult.chr s1 c
    else if c = 'n' then EscResult.chr s1 '\n'
    else if c = 'u' then
      let startPos := s1.pos
      let s2 : TokState := { s1 with pos := s1.pos + 4 }
      if s2.pos ≥ s2.line.length then
        EscResult.perror (terrAppend s2 "Unterminated Unicode escape")
      else
        match pyIntHex ((s2.line.drop startPos).take 4) with
        | none => EscResult.crash s2 PyExn.valueError
        | some n =>
          if n < 0 ∨ n > 0x10FFFF then EscResult.crash s2 PyExn.valueError
          else if 0xD800 ≤ n ∧ n ≤ 0xDFFF then EscResult.crash s2 PyExn.unicodeEncodeError
          else
            -- the decoded character is computed and then dropped: the
            -- `'u'` arm has no `return`, so `None` is returned
            EscResult.noChar s2
    else EscResult.noChar s1
  else EscResult.crash s PyExn.indexError

/-! ## Tokenizer results and string reading -/

/-- Outcome of one `next()` pull on the tokenizer.  `stop` is
`StopIteration` (ordinary end of the token stream as seen by consumers);
`perror` is a `ParsingError` in flight inside the `__next__` body (it is
converted to `stop` by the `except ParsingError` handler, see `tokNext`);
`crash` is an uncaught Python exception; `noFuel` is the artificial
fuel-exhaustion outcome. -/
inductive TokRes where
  | tok (s : TokState) (t : Token)
  | stop (s : TokState)
  | perror (s : TokState)
  | crash (s : TokState) (e : PyExn)
  | noFuel (s : TokState)
deriving DecidableEq, Repr

/-- `Tokenizer._read_string`'s main loop; `startLine`/`startPos` are the
coordinates of the opening quote, `out` is the `StringIO` accumulator. -/
def readStringLoop (startLine startPos : Nat) (out : List Char) (fuel : Nat)
    (s : TokState) : TokRes :=
  match fuel with
  | 0 => TokRes.noFuel s
  | fuel + 1 =>
    if s.pos = s.line.length then
      match readLine s with
      | none => TokRes.perror (terrAppend s "Unterminated string")
      | some s1 => readStringLoop startLine startPos out fuel s1
    else if h : s.pos < s.line.length then
      let c := s.line.get ⟨s.pos, h⟩
      let s1 : TokState := { s with pos := s.pos + 1 }
      if c = '"' then
        TokRes.tok s1 ⟨TokenKind.STRING, startLine, startPos, TokenValue.str (String.mk out)⟩
      else if c = '\\' then
        match parseEscape s1 with
        | EscResult.chr s2 c2 =>
          let s3 := if c2 = '�' then twarn s2 "Invalid UTF-8 in string literal" else s2
          readStringLoop startLine startPos (out ++ [c2]) fuel s3
        | EscResult.noChar s2 =>
          -- `output.write(None)`: `StringIO.write` requires a string and
          -- raises `TypeError` on `None`
          TokRes.crash s2 PyExn.typeError
        | EscResult.perror s2 => TokRes.perror s2
        | EscResult.crash s2 e => TokRes.crash s2 e
      else
        let s3 := if c = '�' then twarn s1 "Invalid UTF-8 in string literal" else s1
        readStringLoop startLine startPos (out ++ [c]) fuel s3
    else TokRes.crash s PyExn.indexError

/-- `Tokenizer._read_string`: records the opening coordinate, steps past
the quote and scans. -/
def readString (fuel : Nat) (s : TokState) : TokRes :=
  readStringLoop s.lineNumber s.pos [] fuel { s with pos := s.pos + 1 }

/-! ## Name and number recognition (`_NAME_REGEX`, `_NUMBER_REGEX`) -/

/-- `_NAME_REGEX.match(line, pos)`: returns matched text and end position. -/
def nameMatch (line : List Char) (pos : Nat) : Option (String × Nat) :=
  match line.drop pos with
  | [] => none
  | c :: cs =>
    if isNameStart c then
      let body := cs.takeWhile isNameCont
      some (String.mk (c :: body), pos + 1 + body.length)
    else none

/-- Decimal parts of a number literal: sign, integer digits, fraction
digits, exponent. -/
structure NumParts where
  sign : Int
  intPart : List Char
  fracPart : List Char
  exp : Int
deriving DecidableEq, Repr

/-- The exact rational value of the matched literal (CPython stores an
`int` when the literal has no point/exponent and otherwise the nearest
`float`; the engine only compares values with 0 and 1 — see header). -/
def numValue (p : NumParts) : ℚ :=
  let mantissa : ℚ :=
    (p.intPart.foldl (fun a c => a * 10 + (c.toNat - '0'.toNat)) 0 : ℕ) +
      (p.fracPart.foldl (fun a c => a * 10 + (c.toNat - '0'.toNat)) 0 : ℕ) /
        ((10 : ℚ) ^ p.fracPart.length)
  (p.sign : ℚ) * mantissa * (10 : ℚ) ^ p.exp

/-- The optional sign `[+\-]?` of `_NUMBER_REGEX`: sign value, remaining
characters, and position after it. -/
def signSplit (rest : List Char) (pos : Nat) : Int × List Char × Nat :=
  match rest with
  | [] => (1, ([] : List Char), pos)
  | c :: r =>
    if c = '+' then (1, r, pos + 1)
    else if c = '-' then (-1, r, pos + 1)
    else (1, c :: r, pos)

/-- The mantissa alternation `[0-9]+(?:\.[0-9]*)?|\.[0-9]+` of
`_NUMBER_REGEX`: integer digits, fraction digits, and the position after
the match (ordered alternation, greedy digit runs). -/
def mantissaSplit (r1 : List Char) (pos1 : Nat) : Option (List Char × List Char × Nat) :=
  let intDigits := r1.takeWhile isDigitChar
  if intDigits.isEmpty then
    match r1 with
    | [] => none
    | c :: r2 =>
      if c = '.' then
        let fd := r2.takeWhile isDigitChar
        if fd.isEmpty then none else some ([], fd, pos1 + 1 + fd.length)
      else none
  else
    match r1.drop intDigits.length with
    | [] => some (intDigits, [], pos1 + intDigits.length)
    | c :: r2 =>
      if c = '.' then
        let fd := r2.takeWhile isDigitChar
        some (intDigits, fd, pos1 + intDigits.length + 1 + fd.length)
      else some (intDigits, [], pos1 + intDigits.length)

/-- The part of the optional exponent after its `[Ee]`: if the digits are
missing the whole exponent group is not consumed (regex backtracking). -/
def expDigitsSplit (r3 : List Char) (pos2 : Nat) : Int × Nat :=
  match signSplit r3 (pos2 + 1) with
  | (es, r4, pos4) =>
    let ed := r4.takeWhile isDigitChar
    if ed.isEmpty then (0, pos2)
    else
      (es * (Int.ofNat (ed.foldl (fun a c => a * 10 + (c.toNat - '0'.toNat)) 0)),
        pos4 + ed.length)

/-- The optional exponent `(?:[Ee][+-]?[0-9]+)?` of `_NUMBER_REGEX`. -/
def expSplit (cs : List Char) (pos2 : Nat) : Int × Nat :=
  match cs with
  | [] => (0, pos2)
  | c :: r3 =>
    if c = 'e' ∨ c = 'E' then expDigitsSplit r3 pos2
    else (0, pos2)

/-- `_NUMBER_REGEX.match(line, pos)`:
`[+\-]?(?:[0-9]+(?:\.[0-9]*)?|\.[0-9]+)(?:[Ee][+-]?[0-9]+)?`.
Returns the parsed parts and the end position. -/
def numberMatch (line : List Char) (pos : Nat) : Option (NumParts × Nat) :=
  match signSplit (line.drop pos) pos with
  | (sign, r1, pos1) =>
    match mantissaSplit r1 pos1 with
    | none => none
    | some (ip, fp, pos2) =>
      match expSplit (line.drop pos2) pos2 with
      | (e, pos3) => some (⟨sign, ip, fp, e⟩, pos3)

/-! ## The main tokenizer loop (`Tokenizer.__next__`) -/

/-- The body of the `try` block of `Tokenizer.__next__` (before the
`except ParsingError` handler). -/
def tokInner (fuel : Nat) (s : TokState) : TokRes :=
  match fuel with
  | 0 => TokRes.noFuel s
  | fuel + 1 =>
    if s.pos = s.line.length then
      match readLine s with
      | none => TokRes.stop s
      | some s1 => tokInner fuel s1
    else if h : s.pos < s.line.length then
      let c := s.line.get ⟨s.pos, h⟩
      if c = '\t' ∨ c = ' ' then tokInner fuel { s with pos := s.pos + 1 }
      else if c = '#' then tokInner fuel { s with pos := s.line.length }
      else if c = '"' then readString fuel s
      else if c = '{' then
        TokRes.tok { s with pos := s.pos + 1 }
          ⟨TokenKind.START_OBJECT, s.lineNumber, s.pos, TokenValue.none⟩
      else if c = '}' then
        TokRes.tok { s with pos := s.pos + 1 }
          ⟨TokenKind.END_OBJECT, s.lineNumber, s.pos, TokenValue.none⟩
      else if c = '[' then
        TokRes.tok { s with pos := s.pos + 1 }
          ⟨TokenKind.START_ARRAY, s.lineNumber, s.pos, TokenValue.none⟩
      else if c = ']' then
        TokRes.tok { s with pos := s.pos + 1 }
          ⟨TokenKind.END_ARRAY, s.lineNumber, s.pos, TokenValue.none⟩
      else if c = '<' then
        TokRes.tok { s with pos := s.pos + 1 }
          ⟨TokenKind.START_UNITS, s.lineNumber, s.pos, TokenValue.none⟩
      else if c = '>' then
        TokRes.tok { s with pos := s.pos + 1 }
          ⟨TokenKind.END_UNITS, s.lineNumber, s.pos, TokenValue.none⟩
      else if c = '=' then
        TokRes.tok { s with pos := s.pos + 1 }
          ⟨TokenKind.EQUALS, s.lineNumber, s.pos, TokenValue.none⟩
      else if c = '|' then
        TokRes.tok { s with pos := s.pos + 1 }
          ⟨TokenKind.BAR, s.lineNumber, s.pos, TokenValue.none⟩
      else
        match nameMatch s.line s.pos with
        | some (txt, endPos) =>
          let s1 : TokState := { s with pos := endPos }
          if txt = "false" then
            TokRes.tok s1 ⟨TokenKind.BOOLEAN, s.lineNumber, s.pos, TokenValue.bool false⟩
          else if txt = "true" then
            TokRes.tok s1 ⟨TokenKind.BOOLEAN, s.lineNumber, s.pos, TokenValue.bool true⟩
          else
            TokRes.tok s1 ⟨TokenKind.NAME, s.lineNumber, s.pos, TokenValue.str txt⟩
        | none =>
          match numberMatch s.line s.pos with
          | some (parts, endPos) =>
            TokRes.tok { s with pos := endPos }
              ⟨TokenKind.NUMBER, s.lineNumber, s.pos, TokenValue.num (numValue parts)⟩
          | none =>
            let s1 := twarn s ("Unexpected character " ++ pyRepr (String.mk [c]) ++ " in file")
            tokInner fuel { s1 with pos := s1.pos + 1 }
    else TokRes.crash s PyExn.indexError

/-- An upper bound on the number of loop steps the scan can take from
state `s`: every iteration either consumes a character of the current
line, jumps to its end, or consumes a line.  Used only to pick a
sufficient fuel for `tokNext`. -/
def tokFuel (s : TokState) : Nat :=
  s.line.length + (s.lines.map List.length).sum + s.lines.length + 2

/-- `Tokenizer.__next__`: the scan body wrapped in
`except ParsingError as ex: raise StopIteration from ex`. -/
def tokNext (s : TokState) : TokRes :=
  match tokInner (tokFuel s) s with
  | TokRes.perror s1 => TokRes.stop s1
  | r => r

/-! ## Parser data model (parser.py lines 23-48, 227-235) -/

/-- `DataType` from parser.py. -/
inductive DataType where
  | BOOLEAN
  | NUMBER
  | VECTOR
  | QUATERNION
  | STRING
  | OBJECT
  | DATE
  | NUMBER_OR_STRING
  | STRING_LIST
  | OBJECT_LIST
  | VECTOR_OR_OBJECT
  | COLOR
deriving DecidableEq, Repr

/-- `UnitsType` from parser.py. -/
inductive UnitsType where
  | LENGTH
  | TIME
  | ANGLE
  | MASS
  | SPHERICAL
deriving DecidableEq, Repr

/-- `Disposition` from parser.py. -/
inductive Disposition where
  | ADD
  | MODIFY
  | REPLACE
deriving DecidableEq, Repr

/-- `PropertyDef = tuple[DataType, Optional[UnitsType]]`. -/
abbrev PropertyDef := DataType × Option UnitsType

/-- A schema: the `dict[str, PropertyDef]` arguments, as an association
list (lookup order is irrelevant for `dict` access). -/
abbrev PropMap := List (String × PropertyDef)

def lookupProp (props : PropMap) (k : String) : Option PropertyDef :=
  (props.find? (fun p => p.1 == k)).map (fun p => p.2)

/-- `_UNIT_TYPES.get(name, None)` (parser.py lines 50-79). -/
def unitTypesGet (v : String) : Option UnitsType :=
  match v with
  | "km" => some UnitsType.LENGTH
  | "m" => some UnitsType.LENGTH
  | "rE" => some UnitsType.LENGTH
  | "rS" => some UnitsType.LENGTH
  | "au" => some UnitsType.LENGTH
  | "AU" => some UnitsType.LENGTH
  | "ly" => some UnitsType.LENGTH
  | "pc" => some UnitsType.LENGTH
  | "kpc" => some UnitsType.LENGTH
  | "Mpc" => some UnitsType.LENGTH
  | "s" => some UnitsType.TIME
  | "min" => some UnitsType.TIME
  | "h" => some UnitsType.TIME
  | "d" => some UnitsType.TIME
  | "y" => some UnitsType.TIME
  | "mas" => some UnitsType.ANGLE
  | "arcsec" => some UnitsType.ANGLE
  | "arcmin" => some UnitsType.ANGLE
  | "deg" => some UnitsType.ANGLE
  | "hRA" => some UnitsType.ANGLE
  | "rad" => some UnitsType.ANGLE
  | "kg" => some UnitsType.MASS
  | "mE" => some UnitsType.MASS
  | "mJ" => some UnitsType.MASS
  | _ => none

/-- The `_X11_COLORS` set (parser.py lines 81-222). -/
def x11Colors : List String :=
  ["aliceblue", "antiquewhite", "aqua", "aquamarine", "azure", "beige",
   "bisque", "black", "blanchedalmond", "blue", "blueviolet", "brown",
   "burlywood", "cadetblue", "chartreuse", "chocolate", "coral",
   "cornflowerblue", "cornsilk", "crimson", "cyan", "darkblue", "darkcyan",
   "darkgoldenrod", "darkgray", "darkgreen", "darkkhaki", "darkmagenta",
   "darkolivegreen", "darkorange", "darkorchid", "darkred", "darksalmon",
   "darkseagreen", "darkslateblue", "darkslategray", "darkturquoise",
   "darkviolet", "deeppink", "deepskyblue", "dimgray", "dodgerblue",
   "firebrick", "floralwhite", "forestgreen", "fuchsia", "gainsboro",
   "ghostwhite", "gold", "goldenrod", "gray", "green", "greenyellow",
   "honeydew", "hotpink", "indianred", "indigo", "ivory", "khaki",
   "lavender", "lavenderblush", "lawngreen", "lemonchiffon", "lightblue",
   "lightcoral", "lightcyan", "lightgoldenrodyellow", "lightgreen",
   "lightgrey", "lightpink", "lightsalmon", "lightseagreen",
   "lightskyblue", "lightslategray", "lightsteelblue", "lightyellow",
   "lime", "limegreen", "linen", "magenta", "maroon", "mediumaquamarine",
   "mediumblue", "mediumorchid", "mediumpurple", "mediumseagreen",
   "mediumslateblue", "mediumspringgreen", "mediumturquoise",
   "mediumvioletred", "midnightblue", "mintcream", "mistyrose", "moccasin",
   "navajowhite", "navy", "oldlace", "olive", "olivedrab", "orange",
   "orangered", "orchid", "palegoldenrod", "palegreen", "paleturquoise",
   "palevioletred", "papayawhip", "peachpuff", "peru", "pink", "plum",
   "powderblue", "purple", "red", "rosybrown", "royalblue", "saddlebrown",
   "salmon", "sandybrown", "seagreen", "seashell", "sienna", "silver",
   "skyblue", "slateblue", "slategray", "snow", "springgreen", "steelblue",
   "tan", "teal", "thistle", "tomato", "turquoise", "violet", "wheat",
   "white", "whitesmoke", "yellow", "yellowgreen"]

/-- `_COLOR_REGEX.match(v)`: `^#[0-9a-fA-F]{3,8}$` (a `match` anchored at
the start; the greedy counted repetition together with the end anchor
makes this a full-shape test). -/
def colorRegexMatch (v : String) : Bool :=
  match v.toList with
  | c :: rest =>
    c == '#' && decide (3 ≤ rest.length) && decide (rest.length ≤ 8) &&
      rest.all isHexDigitChar
  | [] => false

/-- The color-acceptance test of `_check_value`'s Color arm (parser.py
lines 751-757): `token.value in _X11_COLORS or (len(token.value) in
(4, 7, 9) and _COLOR_REGEX.match(token.value) is not None)`. -/
def colorAccept (v : String) : Bool :=
  x11Colors.contains v ||
    ((v.length == 4 || v.length == 7 || v.length == 9) && colorRegexMatch v)

/-! ## Filename classifiers (filenames.py), used by `_validate_string` -/

/-- `^(?:COM|LPT)[0-9²³¹]$` from filenames.py. -/
def invalidFileRegexMatch (v : String) : Bool :=
  match v.toList with
  | c1 :: c2 :: c3 :: [d] =>
    ((c1 = 'C' ∧ c2 = 'O' ∧ c3 = 'M') ∨ (c1 = 'L' ∧ c2 = 'P' ∧ c3 = 'T')) ∧
      (isDigitChar d ∨ d = '²' ∨ d = '³' ∨ d = '¹')
  | _ => false

/-- `filenames.is_file`. -/
def is_file (v : String) : Bool :=
  !(v.toList.contains '/') && !(v.toList.contains '\\') &&
    !(v ∈ ["CON", "PRN", "AUX", "NUL"]) && !(invalidFileRegexMatch v)

/-- `os.path.splitext(v)[1]`: the extension from the last dot, except that
dots that only lead the (whole) name do not start an extension. -/
def splitextExt (v : String) : String :=
  let cs := v.toList
  let lead := (cs.takeWhile (fun c => c = '.')).length
  let core := cs.drop lead
  match (core.reverse.takeWhile (fun c => c ≠ '.')), core.reverse.drop ((core.reverse.takeWhile (fun c => c ≠ '.')).length) with
  | _, [] => ""
  | revBase, _ => String.mk ('.' :: revBase.reverse)

/-- Python `str.casefold` restricted to ASCII (the extension lists are
ASCII). -/
def pyCasefold (v : String) : String :=
  String.mk (v.toList.map Char.toLower)

/-- `filenames.is_mesh_file`. -/
def is_mesh_file (v : String) : Bool :=
  is_file v && pyCasefold (splitextExt v) ∈ [".cmod", ".3ds", ".cms"]

/-- `filenames.is_texture_file`. -/
def is_texture_file (v : String) : Bool :=
  is_file v &&
    pyCasefold (splitextExt v) ∈
      [".jpg", ".jpeg", ".png", ".dds", ".dxt5nm", ".ctx", ".avif", ".*"]

/-! ## Date-string validation (parser.py lines 237-295) -/

/-- The named groups produced by `_ISO_DATE_REGEX` / `_NORMAL_REGEX`. -/
structure DateGroups where
  year : String
  month : String
  day : String
  hour : Option String
  minute : Option String
  second : Option String
deriving DecidableEq, Repr

/-- Exactly `n` decimal digits from the front of `cs`. -/
def takeExactDigits (n : Nat) (cs : List Char) : Option (List Char × List Char) :=
  let ds := (cs.take n)
  if ds.length = n ∧ ds.all isDigitChar then some (ds, cs.drop n) else none

/-- A maximal digit run whose length must be 1 or 2 (`[0-9]{1,2}` followed
by a non-digit context in `_NORMAL_REGEX`; a run of 3 or more digits makes
every backtracking alternative fail). -/
def take12Digits (cs : List Char) : Option (List Char × List Char) :=
  let ds := cs.takeWhile isDigitChar
  if ds.length = 1 ∨ ds.length = 2 then some (ds, cs.drop ds.length) else none

/-- `_ISO_DATE_REGEX.match`:
`^([+\-]?[0-9]+)-([0-9]{2})-([0-9]{2})T([0-9]{2}):([0-9]{2}):([0-9]{2}(?:\.[0-9]+)?)$`. -/
def isoDateMatch (v : String) : Option DateGroups :=
  let cs := v.toList
  let signYear : List Char × List Char :=
    match cs with
    | '+' :: r => (['+'], r)
    | '-' :: r => (['-'], r)
    | r => ([], r)
  match signYear with
  | (sgn, r0) =>
    let yd := r0.takeWhile isDigitChar
    if yd.isEmpty then none
    else
      match r0.drop yd.length with
      | '-' :: r1 =>
        match takeExactDigits 2 r1 with
        | none => none
        | some (md, r2) =>
          match r2 with
          | '-' :: r3 =>
            match takeExactDigits 2 r3 with
            | none => none
            | some (dd, r4) =>
              match r4 with
              | 'T' :: r5 =>
                match takeExactDigits 2 r5 with
                | none => none
                | some (hd, r6) =>
                  match r6 with
                  | ':' :: r7 =>
                    match takeExactDigits 2 r7 with
                    | none => none
                    | some (mind, r8) =>
                      match r8 with
                      | ':' :: r9 =>
                        match takeExactDigits 2 r9 with
                        | none => none
                        | some (sd, r10) =>
                          match r10 with
                          | [] =>
                            some ⟨String.mk (sgn ++ yd), String.mk md, String.mk dd,
                              some (String.mk hd), some (String.mk mind),
                              some (String.mk sd)⟩
                          | '.' :: r11 =>
                            let fd := r11.takeWhile isDigitChar
                            if fd.isEmpty ∨ r11.drop fd.length ≠ [] then none
                            else
                              some ⟨String.mk (sgn ++ yd), String.mk md, String.mk dd,
                                some (String.mk hd), some (String.mk mind),
                                some (String.mk (sd ++ '.' :: fd))⟩
                          | _ => none
                      | _ => none
                  | _ => none
              | _ => none
          | _ => none
      | _ => none

/-- `\s` of the Python `re` module (ASCII part). -/
def pyIsReSpace (c : Char) : Bool := pyIsSpace c

/-- The optional seconds group `[0-9]{1,2}(?:\.[0-9]+)?` followed by the
final `\s*$`. -/
def normalSecondsTail (cs : List Char) : Option String :=
  match take12Digits cs with
  | none => none
  | some (sd, r1) =>
    match r1 with
    | '.' :: r2 =>
      let fd := r2.takeWhile isDigitChar
      if fd.isEmpty then none
      else if (r2.drop fd.length).all pyIsReSpace then
        some (String.mk (sd ++ '.' :: fd))
      else none
    | _ => if r1.all pyIsReSpace then some (String.mk sd) else none

/-- `_NORMAL_REGEX.match`:
`^\s*([+\-]?[0-9]+)\s+([0-9]{1,2})\s+([0-9]{1,2})(\s+([0-9]{1,2}):([0-9]{1,2})(?::([0-9]{1,2}(?:\.[0-9]+)?))?)?\s*$`
with the regex engine's backtracking between the with-time and
without-time readings. -/
def normalMatch (v : String) : Option DateGroups :=
  let cs := (v.toList).dropWhile pyIsReSpace
  let signYear : List Char × List Char :=
    match cs with
    | '+' :: r => (['+'], r)
    | '-' :: r => (['-'], r)
    | r => ([], r)
  match signYear with
  | (sgn, r0) =>
    let yd := r0.takeWhile isDigitChar
    if yd.isEmpty then none
    else
      let year := String.mk (sgn ++ yd)
      let r1 := r0.drop yd.length
      let ws1 := r1.takeWhile pyIsReSpace
      if ws1.isEmpty then none
      else
        match take12Digits (r1.drop ws1.length) with
        | none => none
        | some (md, r2) =>
          let ws2 := r2.takeWhile pyIsReSpace
          if ws2.isEmpty then none
          else
            match take12Digits (r2.drop ws2.length) with
            | none => none
            | some (dd, r3) =>
              let noTime : Option DateGroups :=
                if r3.all pyIsReSpace then
                  some ⟨year, String.mk md, String.mk dd, none, none, none⟩
                else none
              let withTime : Option DateGroups :=
                let ws3 := r3.takeWhile pyIsReSpace
                if ws3.isEmpty then none
                else
                  match take12Digits (r3.drop ws3.length) with
                  | none => none
                  | some (hd, r4) =>
                    match r4 with
                    | ':' :: r5 =>
                      match take12Digits r5 with
                      | none => none
                      | some (mind, r6) =>
                        match r6 with
                        | ':' :: r7 =>
                          match normalSecondsTail r7 with
                          | some sec =>
                            some ⟨year, String.mk md, String.mk dd,
                              some (String.mk hd), some (String.mk mind), some sec⟩
                          | none => none
                        | _ =>
                          if r6.all pyIsReSpace then
                            some ⟨year, String.mk md, String.mk dd,
                              some (String.mk hd), some (String.mk mind), none⟩
                          else none
                    | _ => none
              match withTime with
              | some g => some g
              | none => noTime

/-- Python `int(text)`: optional sign then decimal digits (the regex
groups never carry anything else). -/
def pyIntStr (v : String) : Option Int :=
  let parts : Int × List Char :=
    match v.toList with
    | '+' :: r => (1, r)
    | '-' :: r => (-1, r)
    | r => (1, r)
  match parts with
  | (sign, ds) =>
    if ds.isEmpty || !(ds.all isDigitChar) then none
    else some (sign * (Int.ofNat (ds.foldl (fun a c => a * 10 + (c.toNat - '0'.toNat)) 0)))

/-- Python `float(text)` on a seconds group `dd(.ffff)?`, as an exact
rational (see header comment on floating point). -/
def pyFloatStr (v : String) : Option ℚ :=
  let intDs := v.toList.takeWhile isDigitChar
  if intDs.isEmpty then none
  else
    let i : ℚ := (intDs.foldl (fun a c => a * 10 + (c.toNat - '0'.toNat)) 0 : ℕ)
    match v.toList.drop intDs.length with
    | [] => some i
    | '.' :: fs =>
      if fs.isEmpty || !(fs.all isDigitChar) then none
      else
        some (i + ((fs.foldl (fun a c => a * 10 + (c.toNat - '0'.toNat)) 0 : ℕ) : ℚ) /
          ((10 : ℚ) ^ fs.length))
    | _ => none

/-- `_check_date_string` (parser.py lines 251-295).  The `try`/`except
ValueError` around the conversions is modelled by the `Option` bail-outs
(the regex shapes in fact make every conversion succeed). -/
def checkDateString (v : String) : Bool :=
  match (match isoDateMatch v with
         | some g => some g
         | none => normalMatch v) with
  | none => false
  | some g =>
    match pyIntStr g.year, pyIntStr g.month with
    | some year, some month =>
      if month < 1 ∨ month > 12 then false
      else
        match pyIntStr g.day with
        | some day =>
          if day < 1 then false
          else
            let monthDays : Int :=
              if month = 2 then
                if year % 4 = 0 ∧ (year ≤ 1582 ∨ (year % 100 ≠ 0 ∨ year % 400 = 0)) then 29
                else 28
              else if month = 4 ∨ month = 6 ∨ month = 9 ∨ month = 11 then 30
              else 31
            if day > monthDays then false
            else
              match g.hour with
              | none => true
              | some hs =>
                match pyIntStr hs with
                | none => false
                | some hour =>
                  if hour < 0 ∨ hour ≥ 24 then false
                  else
                    match pyIntStr ((g.minute).getD "") with
                    | none => false
                    | some minute =>
                      if minute < 0 ∨ minute ≥ 60 then false
                      else
                        match g.second with
                        | none => true
                        | some ss =>
                          match pyFloatStr ss with
                          | none => false
                          | some sec => !(sec < 0 ∨ sec ≥ 60)
        | none => false
    | _, _ => false

/-! ## Parser engine state (`TokenFileParser`, parser.py lines 298-330) -/

/-- `TokenFileParser` attributes: the owned tokenizer, `_messages`, and the
one-token pushback slot `saved_token`. -/
structure PState where
  tok : TokState
  pmessages : List ParsingMessage
  saved : Option Token
deriving DecidableEq, Repr

/-- `TokenFileParser.__init__` on an input text. -/
def pInit (input : List String) : PState :=
  { tok := tokInit input, pmessages := [], saved := none }

/-- `TokenFileParser._warn` (also appends to the ghost trace). -/
def pwarn (s : PState) (line pos : Nat) (message : String) : PState :=
  let m : ParsingMessage := ⟨line, pos, MessageLevel.WARN, message⟩
  { s with
    pmessages := s.pmessages ++ [m]
    tok := { s.tok with trace := s.tok.trace ++ [⟨Source.engine, m⟩] } }

/-- `TokenFileParser._info`. -/
def pinfo (s : PState) (line pos : Nat) (message : String) : PState :=
  let m : ParsingMessage := ⟨line, pos, MessageLevel.INFO, message⟩
  { s with
    pmessages := s.pmessages ++ [m]
    tok := { s.tok with trace := s.tok.trace ++ [⟨Source.engine, m⟩] } }

/-- The message-append part of `TokenFileParser._error` (the raise itself
is the `perr` result constructor at the call sites). -/
def perrAppend (s : PState) (line pos : Nat) (message : String) : PState :=
  let m : ParsingMessage := ⟨line, pos, MessageLevel.ERROR, message⟩
  { s with
    pmessages := s.pmessages ++ [m]
    tok := { s.tok with trace := s.tok.trace ++ [⟨Source.engine, m⟩] } }

/-- The `messages` property (parser.py lines 314-319):
`self.tokenizer.messages + self._messages`, sorted with
`key=lambda m: (m.line, m.pos)`.  CPython's `list.sort` is a stable sort;
it is modelled by the stable insertion sort `sortByPosKey` defined below,
which produces the same list as any stable sort (see
`eq_of_sorted_of_filterPos_eq`). -/
def posKey (m : ParsingMessage) : Nat × Nat := (m.line, m.pos)

/-- Lexicographic order on `(line, pos)` keys, i.e. Python tuple order. -/
def keyLe (a b : Nat × Nat) : Bool :=
  a.1 < b.1 || (a.1 == b.1 && a.2 ≤ b.2)

/-- Strict lexicographic order on `(line, pos)` keys. -/
def keyLt (a b : Nat × Nat) : Bool :=
  a.1 < b.1 || (a.1 == b.1 && a.2 < b.2)

/-- Stable insertion of the earliest remaining element into an
already-sorted tail: it goes after strictly smaller keys and before equal
ones (which originate later in the input list). -/
def insertByPos (m : ParsingMessage) : List ParsingMessage → List ParsingMessage
  | [] => [m]
  | x :: xs =>
    if keyLt (posKey x) (posKey m) then x :: insertByPos m xs
    else m :: x :: xs

/-- Stable sort by `(line, pos)`. -/
def sortByPosKey : List ParsingMessage → List ParsingMessage
  | [] => []
  | x :: xs => insertByPos x (sortByPosKey xs)

/-- The `messages` property of `TokenFileParser`. -/
def messagesProp (s : PState) : List ParsingMessage :=
  sortByPosKey (s.tok.messages ++ s.pmessages)

/-! ## Engine call results -/

/-- Outcome of an engine method call: normal return, a `ParsingError`
propagating, an uncaught Python exception, or artificial fuel exhaustion. -/
inductive ERes (α : Type) where
  | ok (s : PState) (a : α)
  | perr (s : PState)
  | crash (s : PState) (e : PyExn)
  | noFuel (s : PState)
deriving DecidableEq, Repr

/-- The parser state carried by any outcome. -/
def ERes.state {α : Type} : ERes α → PState
  | ERes.ok s _ => s
  | ERes.perr s => s
  | ERes.crash s _ => s
  | ERes.noFuel s => s

/-- Sequencing with Python exception propagation (a raise in a statement
aborts the rest of the method body). -/
def ERes.bind {α β : Type} : ERes α → (PState → α → ERes β) → ERes β
  | ERes.ok s a, f => f s a
  | ERes.perr s, _ => ERes.perr s
  | ERes.crash s e, _ => ERes.crash s e
  | ERes.noFuel s, _ => ERes.noFuel s

/-- Text used when the `message` argument of `_next_token` is interpolated.
Engine-internal calls never pass `kind`/`message`, so the `none` case (in
which Python would store the `None` object in the message) is not reached
in any modelled scenario. -/
def messageText (m : Option String) : String := m.getD "None"

/-- `TokenFileParser._next_token` (parser.py lines 331-357). -/
def nextToken (kind : Option TokenKind) (message : Option String)
    (isError : Bool) (allowEof : Bool) (s : PState) : ERes (Option Token) :=
  match s.saved with
  | some t => ERes.ok { s with saved := none } (some t)
  | none =>
    match tokNext s.tok with
    | TokRes.tok tk t =>
      let s1 : PState := { s with tok := tk }
      match kind with
      | some k =>
        if t.kind ≠ k then
          if isError then ERes.perr (perrAppend s1 t.line t.pos (messageText message))
          else ERes.ok (pwarn s1 t.line t.pos (messageText message)) (some t)
        else ERes.ok s1 (some t)
      | none => ERes.ok s1 (some t)
    | TokRes.stop tk =>
      let s1 : PState := { s with tok := tk }
      if allowEof then ERes.ok s1 none
      else ERes.perr (perrAppend s1 tk.lineNumber tk.pos "Unexpected EOF")
    | TokRes.crash tk e => ERes.crash { s with tok := tk } e
    | TokRes.perror tk =>
      -- unreachable: `tokNext` converts `ParsingError` to `StopIteration`
      ERes.crash { s with tok := tk } PyExn.runtimeError
    | TokRes.noFuel tk => ERes.noFuel { s with tok := tk }

/-- The engine-internal call pattern `token = self._next_token()` followed
by a field access on `token`: with `allow_eof=False` the result is never
`None`, so the `none` arm (where Python would raise on the attribute
access) is unreachable. -/
def nextTokenBare (s : PState) : ERes Token :=
  match nextToken none none false false s with
  | ERes.ok s1 (some t) => ERes.ok s1 t
  | ERes.ok s1 none => ERes.crash s1 PyExn.typeError
  | ERes.perr s1 => ERes.perr s1
  | ERes.crash s1 e => ERes.crash s1 e
  | ERes.noFuel s1 => ERes.noFuel s1

/-- `TokenFileParser._push_back`. -/
def pushBack (s : PState) (t : Token) : PState :=
  { s with saved := some t }

/-- Python `str()` of a token value as interpolated in f-strings.  `NAME`
tokens always carry strings; the other arms keep the function total (and
`dict`/set lookups with the resulting text miss, exactly as the Python
lookups with a non-string value would). -/
def pyStrValue : TokenValue → String
  | TokenValue.str v => v
  | TokenValue.bool b => if b then "True" else "False"
  | TokenValue.num q => toString q
  | TokenValue.none => "None"

/-- `TokenFileParser._validate_number` (parser.py lines 584-614).  The
comparisons `token.value <= 0` etc. require a number; on a non-number
Python raises `TypeError`. -/
def validateNumber (objectName propertyName : String) (t : Token) (s : PState) :
    ERes Unit :=
  if propertyName = "Radius" ∨ propertyName = "Temperature" ∨ propertyName = "Mass" then
    match t.value with
    | TokenValue.num q =>
      if q ≤ 0 then
        ERes.ok (pwarn s t.line t.pos (propertyName ++ " must be strictly positive")) ()
      else ERes.ok s ()
    | _ => ERes.crash s PyExn.typeError
  else if propertyName = "[]" then
    if objectName = "__color" then
      match t.value with
      | TokenValue.num q =>
        if q < 0 ∨ q > 1 then
          ERes.ok (pwarn s t.line t.pos "Color elements must be in range [0, 1]") ()
        else ERes.ok s ()
      | _ => ERes.crash s PyExn.typeError
    else if objectName = "SemiAxes" then
      match t.value with
      | TokenValue.num q =>
        if q ≤ 0 then
          ERes.ok (pwarn s t.line t.pos "SemiAxes element must be strictly positive") ()
        else ERes.ok s ()
      | _ => ERes.crash s PyExn.typeError
    else ERes.ok s ()
  else ERes.ok s ()

/-- `TokenFileParser._validate_string` (parser.py lines 564-582). -/
def validateString (objectName propertyName : String) (t : Token) (s : PState) :
    ERes Unit :=
  if propertyName = "Mesh" then
    match t.value with
    | TokenValue.str v =>
      if !(is_mesh_file v) then
        ERes.ok (pwarn s t.line t.pos ("Bad mesh filename " ++ pyRepr v)) ()
      else ERes.ok s ()
    | _ => ERes.crash s PyExn.typeError
  else if propertyName = "Texture" then
    match t.value with
    | TokenValue.str v =>
      if !(is_texture_file v) then
        ERes.ok (pwarn s t.line t.pos ("Bad texture filename " ++ pyRepr v)) ()
      else ERes.ok s ()
    | _ => ERes.crash s PyExn.typeError
  else
    let _ := objectName
    ERes.ok s ()

/-- The `element_count: int | tuple[int, int]` argument of
`_check_vector`. -/
inductive ElemCount where
  | int (n : Int)
  | pair (a b : Int)
deriving DecidableEq, Repr

/-- Python `str()` of an `element_count` as interpolated into the
element-count warning. -/
def pyStrElemCount : ElemCount → String
  | ElemCount.int n => toString n
  | ElemCount.pair a b => "(" ++ toString a ++ ", " ++ toString b ++ ")"

/-! ## The engine walk (parser.py lines 362-835)

`gp` is the `_get_properties` extension point: concrete format parsers
override it with schema lookups; the base class raises `RuntimeError`,
which is what the `none` case models at the call sites.  Every `while`
loop of the source is modelled as a recursive function whose extra
arguments are the loop's local variables; each function burns one unit of
fuel on entry. -/

section Engine

variable (gp : String → Option PropMap)

mutual

/-- `TokenFileParser._skip_structure` (lines 362-383): `stack` is
`struct_stack` with its top at the head. -/
def skipStructureLoop (stack : List TokenKind) (fuel : Nat) (s : PState) : ERes Unit :=
  match fuel with
  | 0 => ERes.noFuel s
  | fuel + 1 =>
    match stack with
    | [] => ERes.ok s ()
    | top :: stackRest =>
      (nextTokenBare s).bind fun s1 t =>
        match t.kind with
        | TokenKind.START_OBJECT => skipStructureLoop (t.kind :: top :: stackRest) fuel s1
        | TokenKind.START_ARRAY => skipStructureLoop (t.kind :: top :: stackRest) fuel s1
        | TokenKind.START_UNITS => skipStructureLoop (t.kind :: top :: stackRest) fuel s1
        | TokenKind.END_OBJECT =>
          if top ≠ TokenKind.START_OBJECT then
            ERes.perr (perrAppend s1 t.line t.pos "Mismatched nesting")
          else skipStructureLoop stackRest fuel s1
        | TokenKind.END_ARRAY =>
          if top ≠ TokenKind.START_ARRAY then
            ERes.perr (perrAppend s1 t.line t.pos "Mismatched nesting")
          else skipStructureLoop stackRest fuel s1
        | TokenKind.END_UNITS =>
          if top ≠ TokenKind.START_UNITS then
            ERes.perr (perrAppend s1 t.line t.pos "Mismatched nesting")
          else skipStructureLoop stackRest fuel s1
        | _ => skipStructureLoop (top :: stackRest) fuel s1

/-- `TokenFileParser._skip_value` (lines 385-401). -/
def skipValue (fuel : Nat) (s : PState) : ERes Unit :=
  match fuel with
  | 0 => ERes.noFuel s
  | fuel + 1 =>
    (nextTokenBare s).bind fun s1 t0 =>
      let step1 : ERes Token :=
        if t0.kind = TokenKind.START_UNITS then
          (skipStructureLoop [TokenKind.START_UNITS] fuel s1).bind fun s2 _ =>
            nextTokenBare s2
        else ERes.ok s1 t0
      step1.bind fun s2 t =>
        match t.kind with
        | TokenKind.START_OBJECT => skipStructureLoop [t.kind] fuel s2
        | TokenKind.START_ARRAY => skipStructureLoop [t.kind] fuel s2
        | TokenKind.START_UNITS =>
          skipStructureLoop [t.kind] fuel
            (pwarn s2 t.line t.pos "Unexpected units definition")
        | TokenKind.NAME => ERes.ok (pushBack s2 t) ()
        | TokenKind.END_OBJECT => ERes.ok (pushBack s2 t) ()
        | TokenKind.END_ARRAY => ERes.perr (perrAppend s2 t.line t.pos "Mismatched nesting")
        | TokenKind.END_UNITS => ERes.perr (perrAppend s2 t.line t.pos "Mismatched nesting")
        | _ => ERes.ok s2 ()

/-- `TokenFileParser._check_spherical_units` (lines 403-451). -/
def checkSphericalUnitsLoop (hasAngle hasLength : Bool) (fuel : Nat) (s : PState) :
    ERes Unit :=
  match fuel with
  | 0 => ERes.noFuel s
  | fuel + 1 =>
    (nextTokenBare s).bind fun s1 t =>
      match t.kind with
      | TokenKind.NAME =>
        let v := pyStrValue t.value
        match unitTypesGet v with
        | none =>
          checkSphericalUnitsLoop hasAngle hasLength fuel
            (pwarn s1 t.line t.pos ("Unknown unit type " ++ v))
        | some UnitsType.ANGLE =>
          if hasAngle then
            checkSphericalUnitsLoop hasAngle hasLength fuel
              (pwarn s1 t.line t.pos "Duplicate angle unit")
          else checkSphericalUnitsLoop true hasLength fuel s1
        | some UnitsType.LENGTH =>
          if hasLength then
            checkSphericalUnitsLoop hasAngle hasLength fuel
              (pwarn s1 t.line t.pos "Duplicate length unit")
          else checkSphericalUnitsLoop hasAngle true fuel s1
        | some _ =>
          checkSphericalUnitsLoop hasAngle hasLength fuel
            (pwarn s1 t.line t.pos ("Unexpected unit type " ++ v ++ " ignored"))
      | TokenKind.END_UNITS =>
        let s2 := if !hasAngle then pwarn s1 t.line t.pos "Expected angle unit" else s1
        let s3 := if !hasLength then pwarn s2 t.line t.pos "Expected length unit" else s2
        ERes.ok s3 ()
      | TokenKind.START_ARRAY =>
        (skipStructureLoop [t.kind] fuel
            (pwarn s1 t.line t.pos "Unexpected array in units block")).bind fun s2 _ =>
          checkSphericalUnitsLoop hasAngle hasLength fuel s2
      | TokenKind.START_OBJECT =>
        (skipStructureLoop [t.kind] fuel
            (pwarn s1 t.line t.pos "Unexpected object in units block")).bind fun s2 _ =>
          checkSphericalUnitsLoop hasAngle hasLength fuel s2
      | TokenKind.START_UNITS =>
        (skipStructureLoop [t.kind] fuel
            (pwarn s1 t.line t.pos "Unexpected nested units block")).bind fun s2 _ =>
          checkSphericalUnitsLoop hasAngle hasLength fuel s2
      | TokenKind.END_ARRAY => ERes.perr (perrAppend s1 t.line t.pos "Mismatched nesting")
      | TokenKind.END_OBJECT => ERes.perr (perrAppend s1 t.line t.pos "Mismatched nesting")
      | _ =>
        checkSphericalUnitsLoop hasAngle hasLength fuel
          (pwarn s1 t.line t.pos "Unexpected token in units block")

/-- The main loop of `TokenFileParser._check_units` (lines 458-496);
`has_unit` becomes `True` after any `NAME` token (the assignment on line
477 is outside the `if`/`elif` chain). -/
def checkUnitsLoop (expectedUnits : UnitsType) (hasUnit : Bool) (fuel : Nat)
    (s : PState) : ERes Unit :=
  match fuel with
  | 0 => ERes.noFuel s
  | fuel + 1 =>
    (nextTokenBare s).bind fun s1 t =>
      match t.kind with
      | TokenKind.NAME =>
        let v := pyStrValue t.value
        let s2 :=
          match unitTypesGet v with
          | none => pwarn s1 t.line t.pos ("Unknown unit type " ++ v)
          | some actualUnits =>
            if actualUnits ≠ expectedUnits then
              pwarn s1 t.line t.pos ("Unexpected unit type " ++ v ++ " ignored")
            else if hasUnit then pwarn s1 t.line t.pos "Multiple units found"
            else s1
        checkUnitsLoop expectedUnits true fuel s2
      | TokenKind.END_UNITS =>
        ERes.ok (if !hasUnit then pwarn s1 t.line t.pos "Empty unit block" else s1) ()
      | TokenKind.START_ARRAY =>
        (skipStructureLoop [t.kind] fuel
            (pwarn s1 t.line t.pos "Unexpected array in units block")).bind fun s2 _ =>
          checkUnitsLoop expectedUnits hasUnit fuel s2
      | TokenKind.START_OBJECT =>
        (skipStructureLoop [t.kind] fuel
            (pwarn s1 t.line t.pos "Unexpected object in units block")).bind fun s2 _ =>
          checkUnitsLoop expectedUnits hasUnit fuel s2
      | TokenKind.START_UNITS =>
        (skipStructureLoop [t.kind] fuel
            (pwarn s1 t.line t.pos "Unexpected nested units block")).bind fun s2 _ =>
          checkUnitsLoop expectedUnits hasUnit fuel s2
      | TokenKind.END_ARRAY => ERes.perr (perrAppend s1 t.line t.pos "Mismatched nesting")
      | TokenKind.END_OBJECT => ERes.perr (perrAppend s1 t.line t.pos "Mismatched nesting")
      | _ =>
        checkUnitsLoop expectedUnits hasUnit fuel
          (pwarn s1 t.line t.pos "Unexpected token in units block")

/-- `TokenFileParser._check_units` (lines 453-457). -/
def checkUnits (expectedUnits : UnitsType) (fuel : Nat) (s : PState) : ERes Unit :=
  match fuel with
  | 0 => ERes.noFuel s
  | fuel + 1 =>
    if expectedUnits = UnitsType.SPHERICAL then
      checkSphericalUnitsLoop false false fuel s
    else checkUnitsLoop expectedUnits false fuel s

/-- `TokenFileParser._check_vector` (lines 498-534).  On `END_ARRAY` the
count check evaluates
`(isinstance(element_count, int) and num_elements == element_count) or
(element_count[0] <= num_elements <= element_count[1])`: when
`element_count` is an `int` and the counts differ, the first disjunct is
`False` and the subscription `element_count[0]` raises
`TypeError: 'int' object is not subscriptable`. -/
def checkVectorLoop (propertyName : String) (elementCount : ElemCount)
    (numElements : Nat) (fuel : Nat) (s : PState) : ERes Unit :=
  match fuel with
  | 0 => ERes.noFuel s
  | fuel + 1 =>
    (nextTokenBare s).bind fun s1 t =>
      match t.kind with
      | TokenKind.NUMBER =>
        (validateNumber propertyName "[]" t s1).bind fun s2 _ =>
          checkVectorLoop propertyName elementCount (numElements + 1) fuel s2
      | TokenKind.END_ARRAY =>
        let firstDisjunct : Bool :=
          match elementCount with
          | ElemCount.int n => (numElements : Int) == n
          | ElemCount.pair _ _ => false
        if firstDisjunct then ERes.ok s1 ()
        else
          match elementCount with
          | ElemCount.int _ => ERes.crash s1 PyExn.typeError
          | ElemCount.pair a b =>
            if a ≤ (numElements : Int) ∧ (numElements : Int) ≤ b then ERes.ok s1 ()
            else
              ERes.ok
                (pwarn s1 t.line t.pos
                  ("Expected " ++ pyStrElemCount elementCount ++
                    " elements in vector, found " ++ toString numElements)) ()
      | TokenKind.START_ARRAY =>
        (skipStructureLoop [t.kind] fuel
            (pwarn s1 t.line t.pos "Unexpected sub-array in vector")).bind fun s2 _ =>
          checkVectorLoop propertyName elementCount numElements fuel s2
      | TokenKind.START_OBJECT =>
        (skipStructureLoop [t.kind] fuel
            (pwarn s1 t.line t.pos "Unexpected sub-object in vector")).bind fun s2 _ =>
          checkVectorLoop propertyName elementCount numElements fuel s2
      | TokenKind.START_UNITS =>
        (skipStructureLoop [t.kind] fuel
            (pwarn s1 t.line t.pos "Unexpected units block in vector")).bind fun s2 _ =>
          checkVectorLoop propertyName elementCount numElements fuel s2
      | TokenKind.END_OBJECT => ERes.perr (perrAppend s1 t.line t.pos "Mismatched nesting")
      | TokenKind.END_UNITS => ERes.perr (perrAppend s1 t.line t.pos "Mismatched nesting")
      | _ =>
        checkVectorLoop propertyName elementCount numElements fuel
          (pwarn s1 t.line t.pos "Non-numeric token in vector")

/-- `TokenFileParser._check_string_list` (lines 536-562). -/
def checkStringListLoop (propertyName : String) (fuel : Nat) (s : PState) : ERes Unit :=
  match fuel with
  | 0 => ERes.noFuel s
  | fuel + 1 =>
    (nextTokenBare s).bind fun s1 t =>
      match t.kind with
      | TokenKind.STRING =>
        (validateString propertyName "[]" t s1).bind fun s2 _ =>
          checkStringListLoop propertyName fuel s2
      | TokenKind.END_ARRAY => ERes.ok s1 ()
      | TokenKind.START_ARRAY =>
        (skipStructureLoop [t.kind] fuel
            (pwarn s1 t.line t.pos "Unexpected sub-array in string list")).bind fun s2 _ =>
          checkStringListLoop propertyName fuel s2
      | TokenKind.START_OBJECT =>
        (skipStructureLoop [t.kind] fuel
            (pwarn s1 t.line t.pos "Unexpected sub-object in string list")).bind fun s2 _ =>
          checkStringListLoop propertyName fuel s2
      | TokenKind.START_UNITS =>
        (skipStructureLoop [t.kind] fuel
            (pwarn s1 t.line t.pos "Unexpected units block in string list")).bind fun s2 _ =>
          checkStringListLoop propertyName fuel s2
      | TokenKind.END_OBJECT => ERes.perr (perrAppend s1 t.line t.pos "Mismatched nesting")
      | TokenKind.END_UNITS => ERes.perr (perrAppend s1 t.line t.pos "Mismatched nesting")
      | _ =>
        checkStringListLoop propertyName fuel
          (pwarn s1 t.line t.pos "Non-string token in string list")

/-- `TokenFileParser._check_value` (lines 616-776). -/
def checkValue (objectName propertyName : String) (dataType : DataType)
    (unitsType : Option UnitsType) (fuel : Nat) (s : PState) : ERes Unit :=
  match fuel with
  | 0 => ERes.noFuel s
  | fuel + 1 =>
    (nextTokenBare s).bind fun s1 t0 =>
      let step1 : ERes Token :=
        if t0.kind = TokenKind.START_UNITS then
          (match unitsType with
           | none =>
             skipStructureLoop [TokenKind.START_UNITS] fuel
               (pwarn s1 t0.line t0.pos ("Units ignored for " ++ propertyName))
           | some u => checkUnits u fuel s1).bind fun s2 _ => nextTokenBare s2
        else ERes.ok s1 t0
      step1.bind fun s2 token =>
        if token.kind = TokenKind.END_ARRAY ∨ token.kind = TokenKind.END_UNITS then
          ERes.perr (perrAppend s2 token.line token.pos "Mismatched nesting")
        else if token.kind = TokenKind.END_OBJECT then
          ERes.ok
            (pushBack (pwarn s2 token.line token.pos "Expected value, got end of object")
              token) ()
        else
          let dispatch : ERes Bool :=
            match dataType with
            | DataType.BOOLEAN =>
              if token.kind ≠ TokenKind.BOOLEAN then
                ERes.ok
                  (pwarn s2 token.line token.pos ("Expected a boolean for " ++ propertyName))
                  false
              else ERes.ok s2 true
            | DataType.NUMBER =>
              if token.kind = TokenKind.NUMBER then
                (validateNumber objectName propertyName token s2).bind fun s3 _ =>
                  ERes.ok s3 true
              else
                ERes.ok
                  (pwarn s2 token.line token.pos ("Expected a number for " ++ propertyName))
                  false
            | DataType.VECTOR =>
              if token.kind = TokenKind.START_ARRAY then
                (checkVectorLoop propertyName (ElemCount.int 3) 0 fuel s2).bind fun s3 _ =>
                  ERes.ok s3 true
              else
                ERes.ok
                  (pwarn s2 token.line token.pos ("Expected a vector for " ++ propertyName))
                  false
            | DataType.QUATERNION =>
              if token.kind = TokenKind.START_ARRAY then
                (checkVectorLoop propertyName (ElemCount.int 4) 0 fuel s2).bind fun s3 _ =>
                  ERes.ok s3 true
              else
                ERes.ok
                  (pwarn s2 token.line token.pos
                    ("Expected a quaternion for " ++ propertyName)) false
            | DataType.STRING =>
              if token.kind = TokenKind.STRING then
                (validateString objectName propertyName token s2).bind fun s3 _ =>
                  ERes.ok s3 true
              else
                ERes.ok
                  (pwarn s2 token.line token.pos ("Expected a string for " ++ propertyName))
                  false
            | DataType.OBJECT =>
              if token.kind = TokenKind.START_OBJECT then
                match gp propertyName with
                | none => ERes.crash s2 PyExn.runtimeError
                | some props =>
                  (checkObjectLoop propertyName token props Disposition.ADD [] fuel
                      s2).bind fun s3 _ => ERes.ok s3 true
              else
                ERes.ok
                  (pwarn s2 token.line token.pos ("Expected an object for " ++ propertyName))
                  false
            | DataType.DATE =>
              if token.kind = TokenKind.STRING then
                match token.value with
                | TokenValue.str v =>
                  if !(checkDateString v) then
                    ERes.ok
                      (pwarn s2 token.line token.pos
                        ("Invalid date string for " ++ propertyName)) true
                  else ERes.ok s2 true
                | _ => ERes.crash s2 PyExn.typeError
              else if token.kind ≠ TokenKind.NUMBER then
                ERes.ok
                  (pwarn s2 token.line token.pos
                    ("Expected either number or date string for " ++ propertyName)) false
              else ERes.ok s2 true
            | DataType.NUMBER_OR_STRING =>
              if token.kind = TokenKind.NUMBER then
                (validateNumber objectName propertyName token s2).bind fun s3 _ =>
                  ERes.ok s3 true
              else if token.kind = TokenKind.STRING then
                (validateString objectName propertyName token s2).bind fun s3 _ =>
                  ERes.ok s3 true
              else
                ERes.ok
                  (pwarn s2 token.line token.pos
                    ("Expected either number or string for " ++ propertyName)) false
            | DataType.STRING_LIST =>
              if token.kind = TokenKind.START_ARRAY then
                (checkStringListLoop propertyName fuel s2).bind fun s3 _ => ERes.ok s3 true
              else if token.kind ≠ TokenKind.STRING then
                ERes.ok
                  (pwarn s2 token.line token.pos
                    ("Expected either string or string list for " ++ propertyName)) false
              else ERes.ok s2 true
            | DataType.OBJECT_LIST =>
              if token.kind = TokenKind.START_ARRAY then
                match gp propertyName with
                | none => ERes.crash s2 PyExn.runtimeError
                | some props =>
                  (checkObjectListLoop propertyName props fuel s2).bind fun s3 _ =>
                    ERes.ok s3 true
              else
                ERes.ok
                  (pwarn s2 token.line token.pos ("Expected an array for " ++ propertyName))
                  false
            | DataType.VECTOR_OR_OBJECT =>
              if token.kind = TokenKind.START_ARRAY then
                (checkVectorLoop propertyName (ElemCount.int 3) 0 fuel s2).bind fun s3 _ =>
                  ERes.ok s3 true
              else if token.kind = TokenKind.START_OBJECT then
                match gp propertyName with
                | none => ERes.crash s2 PyExn.runtimeError
                | some props =>
                  (checkObjectLoop propertyName token props Disposition.ADD [] fuel
                      s2).bind fun s3 _ => ERes.ok s3 true
              else
                ERes.ok
                  (pwarn s2 token.line token.pos
                    ("Expected either vector or object for " ++ propertyName)) false
            | DataType.COLOR =>
              if token.kind = TokenKind.STRING then
                match token.value with
                | TokenValue.str v =>
                  if !(colorAccept v) then
                    ERes.ok
                      (pwarn s2 token.line token.pos
                        ("Could not parse " ++ pyRepr v ++ " as a valid color")) true
                  else ERes.ok s2 true
                | _ => ERes.crash s2 PyExn.typeError
              else if token.kind = TokenKind.START_ARRAY then
                (checkVectorLoop "__color" (ElemCount.pair 3 4) 0 fuel s2).bind fun s3 _ =>
                  ERes.ok s3 true
              else
                ERes.ok
                  (pwarn s2 token.line token.pos
                    ("Expected either color vector or string for " ++ propertyName)) false
          dispatch.bind fun s3 isMatch =>
            if isMatch then ERes.ok s3 ()
            else
              let s4 := pushBack s3 token
              if token.kind ≠ TokenKind.NAME then skipValue fuel s4 else ERes.ok s4 ()

/-- The body loop of `TokenFileParser._check_object` (lines 781-818);
`parsed` is `parsed_properties`.  At `END_OBJECT` the base-class
`_check_properties` hook runs, which is `pass`. -/
def checkObjectLoop (objectName : String) (openTok : Token) (props : PropMap)
    (disp : Disposition) (parsed : List String) (fuel : Nat) (s : PState) : ERes Unit :=
  match fuel with
  | 0 => ERes.noFuel s
  | fuel + 1 =>
    (nextTokenBare s).bind fun s1 t =>
      match t.kind with
      | TokenKind.NAME =>
        let v := pyStrValue t.value
        let afterDup : PState × List String :=
          if parsed.contains v then
            (pwarn s1 t.line t.pos ("Duplicate property " ++ v), parsed)
          else (s1, parsed ++ [v])
        match afterDup with
        | (s2, parsed2) =>
          match lookupProp props v with
          | none =>
            (skipValue fuel (pwarn s2 t.line t.pos ("Unknown property " ++ v))).bind
              fun s3 _ => checkObjectLoop objectName openTok props disp parsed2 fuel s3
          | some (dataType, unitType) =>
            (checkValue objectName v dataType unitType fuel s2).bind fun s3 _ =>
              checkObjectLoop objectName openTok props disp parsed2 fuel s3
      | TokenKind.END_OBJECT =>
        let _ := (objectName, openTok, parsed, disp)
        ERes.ok s1 ()
      | TokenKind.END_ARRAY => ERes.perr (perrAppend s1 t.line t.pos "Mismatched nesting")
      | TokenKind.END_UNITS => ERes.perr (perrAppend s1 t.line t.pos "Mismatched nesting")
      | _ =>
        (skipValue fuel (pushBack (pwarn s1 t.line t.pos "Expected property") t)).bind
          fun s2 _ => checkObjectLoop objectName openTok props disp parsed fuel s2

/-- `TokenFileParser._check_object_list` (lines 820-835). -/
def checkObjectListLoop (objectName : String) (props : PropMap) (fuel : Nat)
    (s : PState) : ERes Unit :=
  match fuel with
  | 0 => ERes.noFuel s
  | fuel + 1 =>
    (nextTokenBare s).bind fun s1 t =>
      match t.kind with
      | TokenKind.START_OBJECT =>
        (checkObjectLoop objectName t props Disposition.ADD [] fuel s1).bind fun s2 _ =>
          checkObjectListLoop objectName props fuel s2
      | TokenKind.END_ARRAY => ERes.ok s1 ()
      | TokenKind.END_OBJECT => ERes.perr (perrAppend s1 t.line t.pos "Mismatched nesting")
      | TokenKind.END_UNITS => ERes.perr (perrAppend s1 t.line t.pos "Mismatched nesting")
      | _ =>
        (skipValue fuel (pushBack (pwarn s1 t.line t.pos "Expected object") t)).bind
          fun s2 _ => checkObjectListLoop objectName props fuel s2

end

/-- `TokenFileParser._check_object`: entry with a fresh
`parsed_properties` set. -/
def checkObject (objectName : String) (openTok : Token) (props : PropMap)
    (disp : Disposition) (fuel : Nat) (s : PState) : ERes Unit :=
  checkObjectLoop gp objectName openTok props disp [] fuel s

end Engine

/-! ## Result projections used in the claim statements -/

/-- The uncaught Python exception of an engine outcome, if any. -/
def ERes.crashOf {α : Type} : ERes α → Option PyExn
  | ERes.crash _ e => some e
  | _ => none

/-- Whether an engine call returned normally. -/
def ERes.isOk {α : Type} : ERes α → Bool
  | ERes.ok _ _ => true
  | _ => false

/-- Whether an engine call raised `ParsingError`. -/
def ERes.isPerr {α : Type} : ERes α → Bool
  | ERes.perr _ => true
  | _ => false

/-- The tokenizer state carried by a tokenizer outcome. -/
def TokRes.state : TokRes → TokState
  | TokRes.tok s _ => s
  | TokRes.stop s => s
  | TokRes.perror s => s
  | TokRes.crash s _ => s
  | TokRes.noFuel s => s

/-- The uncaught Python exception of a tokenizer outcome, if any. -/
def TokRes.crashOf : TokRes → Option PyExn
  | TokRes.crash _ e => some e
  | _ => none

/-- Whether a tokenizer pull ended the iteration (`StopIteration`). -/
def TokRes.isStop : TokRes → Bool
  | TokRes.stop _ => true
  | _ => false

/-- All tokens produced until the tokenizer stops delivering (claim-side
helper for stating properties of a concrete stream). -/
def collectTokens (fuel : Nat) (s : TokState) : List Token :=
  match fuel with
  | 0 => []
  | fuel + 1 =>
    match tokNext s with
    | TokRes.tok s1 t => t :: collectTokens fuel s1
    | _ => []

/-- The bracket well-formedness hypothesis of the object-walk safety
claim, for the token stream consumed by `_check_object`: starting inside
one open object, every `END_*` token must close the most recently opened
bracket of the same kind, and the stream must not end while a bracket is
still open; tokens after the object's own closing `END_OBJECT` are not
consumed and are unconstrained. -/
def wellNestedGo : List TokenKind → List Token → Bool
  | [], _ => true
  | _ :: _, [] => false
  | top :: stackRest, t :: ts =>
    match t.kind with
    | TokenKind.START_OBJECT => wellNestedGo (t.kind :: top :: stackRest) ts
    | TokenKind.START_ARRAY => wellNestedGo (t.kind :: top :: stackRest) ts
    | TokenKind.START_UNITS => wellNestedGo (t.kind :: top :: stackRest) ts
    | TokenKind.END_OBJECT => top == TokenKind.START_OBJECT && wellNestedGo stackRest ts
    | TokenKind.END_ARRAY => top == TokenKind.START_ARRAY && wellNestedGo stackRest ts
    | TokenKind.END_UNITS => top == TokenKind.START_UNITS && wellNestedGo stackRest ts
    | _ => wellNestedGo (top :: stackRest) ts

/-- Well-nesting of an object body stream (see `wellNestedGo`). -/
def wellNestedForObject (ts : List Token) : Bool :=
  wellNestedGo [TokenKind.START_OBJECT] ts

/-- A schema resolver with no nested-object mappings (none are needed by
the concrete runs below, which contain no `Object`-typed property). -/
def gpNone : String → Option PropMap := fun _ => none

/-! ## Emission-order instrumentation predicates (for the diagnostic
ordering claim)

The ghost `trace` field records every message appended by either
component, in chronological order.  `messages` / `_messages` are its two
per-source projections; the key invariant `NoLateTie` states that no
engine message was emitted before a lexer message carrying the same
`(line, pos)` key — which is exactly what makes the stable sort of
`tokenizer.messages + self._messages` coincide with the stable sort of
the full chronological emission sequence. -/

/-- The messages of a trace, in emission order. -/
def traceMsgsOf (tr : List TraceEntry) : List ParsingMessage :=
  tr.map TraceEntry.msg

/-- The lexer-emitted messages of a trace (the contents of
`Tokenizer.messages`). -/
def lexerMsgsOf (tr : List TraceEntry) : List ParsingMessage :=
  (tr.filter (fun e => e.src == Source.lexer)).map TraceEntry.msg

/-- The engine-emitted messages of a trace (the contents of
`TokenFileParser._messages`). -/
def engineMsgsOf (tr : List TraceEntry) : List ParsingMessage :=
  (tr.filter (fun e => e.src == Source.engine)).map TraceEntry.msg

/-- No engine entry is followed (later in emission order) by a lexer
entry with the same `(line, pos)` key. -/
def NoLateTie (tr : List TraceEntry) : Prop :=
  tr.Pairwise fun a b =>
    a.src = Source.engine → b.src = Source.lexer → posKey a.msg ≠ posKey b.msg

/-- The part of the run invariant that survives a raise or a crash: the
two message lists are the trace's projections and the trace has no late
cross-source tie. -/
def WeakInv (s : PState) : Prop :=
  s.tok.messages = lexerMsgsOf s.tok.trace ∧
  s.pmessages = engineMsgsOf s.tok.trace ∧
  NoLateTie s.tok.trace

/-- The full reachability invariant of an engine state: `WeakInv`, every
engine message lies strictly below the tokenizer's scan position, and so
does any pushed-back token (both were produced before the scan moved on). -/
def EngineInv (s : PState) : Prop :=
  WeakInv s ∧
  (∀ m ∈ s.pmessages, keyLt (posKey m) (scanKey s.tok) = true) ∧
  (∀ t, s.saved = some t → keyLt (t.line, t.pos) (scanKey s.tok) = true)

/-- What an engine call guarantees about its outcome, relative to the
state `s` it started from: the weak invariant always holds in the final
state, and a normal return additionally preserves the full invariant and
only moves the scan position forward. -/
def ResOk {α : Type} (s : PState) : ERes α → Prop
  | ERes.ok s' _ => EngineInv s' ∧ keyLe (scanKey s.tok) (scanKey s'.tok) = true
  | ERes.perr s' => WeakInv s'
  | ERes.crash s' _ => WeakInv s'
  | ERes.noFuel s' => WeakInv s'

/-- What one tokenizer step guarantees about the state it leaves behind:
the scan position only moves forward, and the message list and trace grow
by one common lexer-tagged batch whose positions are at or beyond the
initial scan position. -/
def TokDelta (s u : TokState) : Prop :=
  keyLe (scanKey s) (scanKey u) = true ∧
  ∃ d, u.messages = s.messages ++ d ∧
    u.trace = s.trace ++ d.map (fun m => ⟨Source.lexer, m⟩) ∧
    ∀ m ∈ d, keyLe (scanKey s) (posKey m) = true

/-- `TokDelta` for every outcome, plus: a delivered token starts strictly
before the final scan position. -/
def TokSpec (s : TokState) : TokRes → Prop
  | TokRes.tok u t => TokDelta s u ∧ keyLt (t.line, t.pos) (scanKey u) = true
  | TokRes.stop u => TokDelta s u
  | TokRes.perror u => TokDelta s u
  | TokRes.crash u _ => TokDelta s u
  | TokRes.noFuel u => TokDelta s u

/-- The state carried by an escape-parse outcome. -/
def EscResult.state : EscResult → TokState
  | EscResult.chr s _ => s
  | EscResult.noChar s => s
  | EscResult.perror s => s
  | EscResult.crash s _ => s

/-! ## Theorems for the claims -/

/-- C1: the claim states that on every token stream with well-formed
bracket nesting `_check_object` consumes through the matching `END_OBJECT`
and returns normally.  This evaluation refutes it on the code: the body
`Axis [ 1 2 ] }` of an object whose schema declares `Axis` as a Vector is
perfectly well-nested, yet the walk aborts with an uncaught
`TypeError` — `_check_vector` reaches the count check with 2 elements and
evaluates `element_count[0]` on the `int` 3.  No `ParsingError` is raised
and no count warning is emitted; the walk simply crashes. -/
theorem c1_wellnested_object_walk_crashes :
    wellNestedForObject (collectTokens 20 (tokInit ["Axis [ 1 2 ] \x7d"])) = true ∧
    ERes.crashOf
      (checkObject gpNone "Obj" ⟨TokenKind.START_OBJECT, 1, 0, TokenValue.none⟩
        [("Axis", (DataType.VECTOR, none))] Disposition.ADD 40
        (pInit ["Axis [ 1 2 ] \x7d"])) = some PyExn.typeError ∧
    ERes.isPerr
      (checkObject gpNone "Obj" ⟨TokenKind.START_OBJECT, 1, 0, TokenValue.none⟩
        [("Axis", (DataType.VECTOR, none))] Disposition.ADD 40
        (pInit ["Axis [ 1 2 ] \x7d"])) = false := by
  decide

/-- C2: the claim states that a declared Vector property whose array holds
n ≠ 3 numeric elements draws a warning reporting n and processing
continues.  On the code, `_check_value` dispatches a 2-element array for a
Vector property into `_check_vector(property_name, 3)`, which crashes with
`TypeError: 'int' object is not subscriptable` at
`element_count[0]` before the warning statement can run: the run emits no
message at all and does not continue. -/
theorem c2_vector_count_mismatch_crashes :
    ERes.crashOf
      (checkValue gpNone "Obj" "Axis" DataType.VECTOR none 40
        (pInit ["[ 1 2 ] \x7d"])) = some PyExn.typeError ∧
    (ERes.state
      (checkValue gpNone "Obj" "Axis" DataType.VECTOR none 40
        (pInit ["[ 1 2 ] \x7d"]))).pmessages = [] := by
  decide

/-- C3: the claim states that a string literal whose escapes are the
well-formed `\"`, `\\`, `\n`, `\uXXXX` lexes to a single String token
holding the decoded characters with no diagnostic.  The first conjuncts
confirm this for `\"`, `\\` and `\n`; the last conjuncts refute it for
`\u0041`: `_parse_escape`'s `'u'` arm computes the decoded character but
ends without `return`, so the function returns `None` and
`output.write(None)` raises an uncaught `TypeError`; no token is produced
(and no diagnostic either). -/
theorem c3_escape_roundtrip_broken_for_unicode :
    tokNext (tokInit ["\"a\\\"b\\\\c\\nd\""]) =
      TokRes.tok
        { lines := [], line := "\"a\\\"b\\\\c\\nd\"".toList, pos := 12, lineNumber := 1,
          messages := [], trace := [] }
        ⟨TokenKind.STRING, 1, 0, TokenValue.str "a\"b\\c\nd"⟩ ∧
    TokRes.crashOf (tokNext (tokInit ["\"\\u0041\""])) = some PyExn.typeError ∧
    (TokRes.state (tokNext (tokInit ["\"\\u0041\""]))).messages = [] := by
  decide

/-- C4: the claim states that an unrecognized escape such as `\q` is
silently dropped: the String token omits it, no diagnostic appears, and
lexing continues.  On the code, `_parse_escape` returns `None` for the
unrecognized escape and `_read_string` then calls `output.write(None)`,
which raises an uncaught `TypeError`: lexing of the string does not
continue and no token is produced. -/
theorem c4_unknown_escape_crashes_instead_of_dropping :
    TokRes.crashOf (tokNext (tokInit ["\"a\\qb\""])) = some PyExn.typeError ∧
    (TokRes.state (tokNext (tokInit ["\"a\\qb\""]))).messages = [] ∧
    TokRes.isStop (tokNext (tokInit ["\"a\\qb\""])) = false := by
  decide

/-- C6: the claim states that an input ending inside an open string
literal yields exactly one Error diagnostic and a clean halt.  The first
conjuncts confirm this for a plain unterminated string.  The last
conjuncts refute the universal claim: the input `"a\u0041b` also ends
inside an open string (no closing quote anywhere), but the scan crashes
with an uncaught `TypeError` at the `\u` escape before reaching the end of
input, appending no Error diagnostic at all. -/
theorem c6_unterminated_string_diagnostics :
    tokNext (tokInit ["x \"abc"]) =
      TokRes.tok
        { lines := [], line := "x \"abc".toList, pos := 1, lineNumber := 1,
          messages := [], trace := [] }
        ⟨TokenKind.NAME, 1, 0, TokenValue.str "x"⟩ ∧
    (tokNext
      { lines := [], line := "x \"abc".toList, pos := 1, lineNumber := 1,
        messages := [], trace := [] }).isStop = true ∧
    (TokRes.state
      (tokNext
        { lines := [], line := "x \"abc".toList, pos := 1, lineNumber := 1,
          messages := [], trace := [] })).messages =
      [⟨1, 6, MessageLevel.ERROR, "Unterminated string"⟩] ∧
    TokRes.crashOf (tokNext (tokInit ["\"a\\u0041b"])) = some PyExn.typeError ∧
    (TokRes.state (tokNext (tokInit ["\"a\\u0041b"]))).messages = [] := by
  decide

/-- C8 counterexample: the claim's leap rule declares every year ≤ 1582
leap, so it accepts February 29 of 1581; the code additionally requires
divisibility by 4 (`year % 4 == 0 and (year <= 1582 or ...)`), and 1581 is
not divisible by 4, so `_check_date_string` rejects the date and the
engine warns (it does not raise). -/
theorem c8_year_1581_feb29_rejected :
    (1581 : Int) ≤ 1582 ∧
    checkDateString "1581 2 29" = false ∧
    (ERes.state
      (checkValue gpNone "Obj" "Beginning" DataType.DATE none 40
        (pInit ["\"1581 2 29\" \x7d"]))).pmessages =
      [⟨1, 0, MessageLevel.WARN, "Invalid date string for Beginning"⟩] ∧
    ERes.isOk
      (checkValue gpNone "Obj" "Beginning" DataType.DATE none 40
        (pInit ["\"1581 2 29\" \x7d"])) = true := by
  decide

/-- C9 counterexample: `#abcd` is `#` followed by 4 hexadecimal digits, so
the claim's accept set contains it; but its total length is 5, which is
not in the code's `(4, 7, 9)` length filter, so the engine emits the
could-not-parse-color warning for it. -/
theorem c9_hash4_color_warned :
    "#abcd".toList = '#' :: ['a', 'b', 'c', 'd'] ∧
    List.all ['a', 'b', 'c', 'd'] isHexDigitChar = true ∧
    (ERes.state
      (checkValue gpNone "Obj" "Color" DataType.COLOR none 40
        (pInit ["\"#abcd\" \x7d"]))).pmessages =
      [⟨1, 0, MessageLevel.WARN, "Could not parse '#abcd' as a valid color"⟩] := by
  decide

/-- C8 (amended): for every date string that the space-separated date
grammar parses with month `2` and no time part, February 29 is accepted
exactly for the years the code treats as leap — divisible by 4 and
additionally at most 1582 or passing the Gregorian refinement — and
February 28 is always accepted; and for any Date-typed property whose
String value fails `_check_date_string`, the engine emits one
invalid-date warning and returns normally (no fatal error). -/
theorem c8_amended_leap_rule (s : String) (g : DateGroups) (y : Int)
    (hiso : isoDateMatch s = none) (hnorm : normalMatch s = some g)
    (hy : pyIntStr g.year = some y) (hm : g.month = "2") (hh : g.hour = none) :
    (g.day = "29" →
      (checkDateString s = true ↔
        (y % 4 = 0 ∧ (y ≤ 1582 ∨ y % 100 ≠ 0 ∨ y % 400 = 0)))) ∧
    (g.day = "28" → checkDateString s = true) ∧
    (∀ (gp : String → Option PropMap) (ps : PState) (tk : TokState) (t : Token)
        (v oname pname : String) (ut : Option UnitsType) (f : Nat),
      ps.saved = none → tokNext ps.tok = TokRes.tok tk t →
      t.kind = TokenKind.STRING → t.value = TokenValue.str v →
      checkDateString v = false →
      checkValue gp oname pname DataType.DATE ut (f + 1) ps =
        ERes.ok
          (pwarn { ps with tok := tk } t.line t.pos
            ("Invalid date string for " ++ pname)) ()) := by
  have h2 : pyIntStr "2" = some 2 := by decide
  have h29 : pyIntStr "29" = some 29 := by decide
  have h28 : pyIntStr "28" = some 28 := by decide
  refine ⟨?_, ?_, ?_⟩
  · intro hday
    simp [checkDateString, hiso, hnorm, hy, hm, hh, hday, h2, h29]
    split_ifs with hleap
    · simp [hleap]
    · simpa using hleap
  · intro hday
    simp [checkDateString, hiso, hnorm, hy, hm, hh, hday, h2, h28]
    split_ifs <;> norm_num
  · intro gp ps tk t v oname pname ut f hsaved htok hkind hval hbad
    obtain ⟨ptok, pmsgs, psaved⟩ := ps
    simp only at hsaved htok
    subst hsaved
    simp [checkValue, nextTokenBare, nextToken, ERes.bind, htok, hkind, hval, hbad]

/-- Witness for the amended leap rule at the concrete Gregorian leap year
2000: the grammar hypotheses hold for `2000 2 29` and February 29 is
accepted. -/
theorem c8_amended_leap_rule_witness :
    isoDateMatch "2000 2 29" = none ∧
    normalMatch "2000 2 29" = some ⟨"2000", "2", "29", none, none, none⟩ ∧
    pyIntStr "2000" = some 2000 ∧
    (("29" : String) = "29" →
      (checkDateString "2000 2 29" = true ↔
        ((2000 : Int) % 4 = 0 ∧
          ((2000 : Int) ≤ 1582 ∨ (2000 : Int) % 100 ≠ 0 ∨ (2000 : Int) % 400 = 0)))) :=
  ⟨by decide, by decide, by decide,
   (c8_amended_leap_rule "2000 2 29" ⟨"2000", "2", "29", none, none, none⟩ 2000
      (by decide) (by decide) (by decide) rfl rfl).1⟩

/-- The engine's color-acceptance condition (parser.py lines 751-757)
holds exactly for recognized named colors and `#` followed by 3, 6 or 8
hexadecimal digits. -/
theorem color_accept_iff (v : String) :
    colorAccept v = true ↔
    (v ∈ x11Colors ∨ ∃ ds, v.toList = '#' :: ds ∧ ds.all isHexDigitChar = true ∧
      (ds.length = 3 ∨ ds.length = 6 ∨ ds.length = 8)) := by
  have hlen : v.length = v.toList.length := rfl
  unfold colorAccept
  simp only [Bool.or_eq_true, Bool.and_eq_true, beq_iff_eq]
  refine or_congr List.elem_iff ?_
  rcases hv : v.toList with _ | ⟨c, rest⟩
  · constructor
    · rintro ⟨-, hr⟩
      simp only [colorRegexMatch, hv] at hr
      exact absurd hr (by simp)
    · rintro ⟨ds, hds, -, -⟩
      exact absurd hds (by simp)
  · rw [hlen, hv]
    simp only [colorRegexMatch, hv, List.length_cons, Bool.and_eq_true,
      decide_eq_true_eq, beq_iff_eq]
    constructor
    · rintro ⟨hl, ⟨⟨hc, h3⟩, h8⟩, hhex⟩
      subst hc
      exact ⟨rest, rfl, hhex, by omega⟩
    · rintro ⟨ds, hds, hhex, hl⟩
      obtain ⟨rfl, rfl⟩ : c = '#' ∧ ds = rest := by
        have h1 := hds
        injection h1 with ha hb
        exact ⟨ha, hb.symm⟩
      exact ⟨by omega, ⟨⟨rfl, by omega⟩, by omega⟩, hhex⟩

/-- C9 (amended): for every Color-typed property whose value is a String
token, `_check_value` returns normally, and the value is accepted without
any warning if and only if it is a recognized named color or `#` followed
by 3, 6, or 8 hexadecimal digits (4, 7, or 9 characters in total). -/
theorem c9_color_string_accept_iff (gp : String → Option PropMap) (ps : PState)
    (tk : TokState) (t : Token) (v oname pname : String) (ut : Option UnitsType)
    (f : Nat) (hsaved : ps.saved = none) (htok : tokNext ps.tok = TokRes.tok tk t)
    (hkind : t.kind = TokenKind.STRING) (hval : t.value = TokenValue.str v) :
    ERes.isOk (checkValue gp oname pname DataType.COLOR ut (f + 1) ps) = true ∧
    ((ERes.state (checkValue gp oname pname DataType.COLOR ut (f + 1) ps)).pmessages =
        ps.pmessages ↔
      (v ∈ x11Colors ∨ ∃ ds, v.toList = '#' :: ds ∧ ds.all isHexDigitChar = true ∧
        (ds.length = 3 ∨ ds.length = 6 ∨ ds.length = 8))) := by
  obtain ⟨ptok, pmsgs, psaved⟩ := ps
  simp only at hsaved htok ⊢
  subst hsaved
  rw [← color_accept_iff v]
  by_cases hcond : colorAccept v = true
  · simp [checkValue, nextTokenBare, nextToken, ERes.bind, htok, hkind, hval, hcond,
      ERes.isOk, ERes.state]
  · have hcf : colorAccept v = false := Bool.eq_false_iff.mpr hcond
    simp [checkValue, nextTokenBare, nextToken, ERes.bind, htok, hkind, hval, hcf,
      ERes.isOk, ERes.state, pwarn]

/-- Witness for the amended color rule: the named color `"red"` is
accepted without warning. -/
theorem c9_color_string_accept_iff_witness :
    (pInit ["\"red\" \x7d"]).saved = none ∧
    tokNext (pInit ["\"red\" \x7d"]).tok =
      TokRes.tok
        { lines := [], line := "\"red\" \x7d".toList, pos := 5, lineNumber := 1,
          messages := [], trace := [] }
        ⟨TokenKind.STRING, 1, 0, TokenValue.str "red"⟩ ∧
    (ERes.isOk (checkValue gpNone "Obj" "Color" DataType.COLOR none (9 + 1)
        (pInit ["\"red\" \x7d"])) = true ∧
      ((ERes.state (checkValue gpNone "Obj" "Color" DataType.COLOR none (9 + 1)
          (pInit ["\"red\" \x7d"]))).pmessages = (pInit ["\"red\" \x7d"]).pmessages ↔
        ("red" ∈ x11Colors ∨ ∃ ds, "red".toList = '#' :: ds ∧
          ds.all isHexDigitChar = true ∧
          (ds.length = 3 ∨ ds.length = 6 ∨ ds.length = 8)))) :=
  ⟨rfl, by decide,
   c9_color_string_accept_iff gpNone (pInit ["\"red\" \x7d"])
     { lines := [], line := "\"red\" \x7d".toList, pos := 5, lineNumber := 1,
       messages := [], trace := [] }
     ⟨TokenKind.STRING, 1, 0, TokenValue.str "red"⟩ "red" "Obj" "Color" none 9
     rfl (by decide) rfl rfl⟩

/-- C10: whenever the tokenizer's scan body raises `ParsingError` (the
unterminated string / escape / Unicode-escape errors are its only raise
sites), `__next__` converts it to `StopIteration`, so a consumer sees
ordinary end-of-input; and a parser that still required a token
(`allow_eof=False` with no pushed-back token) then records its own
"Unexpected EOF" Error diagnostic at the tokenizer's current line and
position and raises `ParsingError` itself. -/
theorem c10_lexer_fatal_reads_as_eof (st st' : TokState)
    (h : tokInner (tokFuel st) st = TokRes.perror st') :
    tokNext st = TokRes.stop st' ∧
    (∀ (ps : PState) (k : Option TokenKind) (m : Option String) (ie : Bool),
      ps.saved = none → ps.tok = st →
      nextToken k m ie false ps =
        ERes.perr
          (perrAppend { ps with tok := st' } st'.lineNumber st'.pos "Unexpected EOF")) := by
  have h1 : tokNext st = TokRes.stop st' := by
    simp [tokNext, h]
  refine ⟨h1, ?_⟩
  intro ps k m ie hsaved hst
  obtain ⟨ptok, pmsgs, psaved⟩ := ps
  simp only at hsaved hst
  subst hsaved
  subst hst
  simp [nextToken, h1]

/-- Witness for C10 at the concrete unterminated-string input. -/
theorem c10_lexer_fatal_reads_as_eof_witness :
    tokInner (tokFuel (tokInit ["\"abc"])) (tokInit ["\"abc"]) =
      TokRes.perror
        { lines := [], line := "\"abc".toList, pos := 4, lineNumber := 1,
          messages := [⟨1, 4, MessageLevel.ERROR, "Unterminated string"⟩],
          trace := [⟨Source.lexer, ⟨1, 4, MessageLevel.ERROR, "Unterminated string"⟩⟩] } ∧
    tokNext (tokInit ["\"abc"]) =
      TokRes.stop
        { lines := [], line := "\"abc".toList, pos := 4, lineNumber := 1,
          messages := [⟨1, 4, MessageLevel.ERROR, "Unterminated string"⟩],
          trace := [⟨Source.lexer, ⟨1, 4, MessageLevel.ERROR, "Unterminated string"⟩⟩] } ∧
    nextToken none none false false (pInit ["\"abc"]) =
      ERes.perr
        (perrAppend
          { pInit ["\"abc"] with
            tok :=
              { lines := [], line := "\"abc".toList, pos := 4, lineNumber := 1,
                messages := [⟨1, 4, MessageLevel.ERROR, "Unterminated string"⟩],
                trace :=
                  [⟨Source.lexer, ⟨1, 4, MessageLevel.ERROR, "Unterminated string"⟩⟩] } }
          1 4 "Unexpected EOF") :=
  ⟨by decide,
   (c10_lexer_fatal_reads_as_eof (tokInit ["\"abc"]) _ (by decide)).1,
   (c10_lexer_fatal_reads_as_eof (tokInit ["\"abc"]) _ (by decide)).2
     (pInit ["\"abc"]) none none false rfl rfl⟩

/-- C7: when a property is declared with unit category Length and the unit
block is exactly `<mas>`, `_check_units` emits exactly one
unexpected-unit-type warning and no "Empty unit block" warning (the
`has_unit` flag is set even for a wrong-category unit), and it returns
normally.  The second pull hypothesis is phrased on the tokenizer state as
it stands after the engine has recorded the warning (the warning only
touches the ghost trace of the tokenizer state). -/
theorem c7_length_units_mas_warns (gp : String → Option PropMap) (ps : PState)
    (tk1 tk2 : TokState) (t1 t2 : Token) (f : Nat)
    (hsaved : ps.saved = none)
    (h1 : tokNext ps.tok = TokRes.tok tk1 t1)
    (hk1 : t1.kind = TokenKind.NAME) (hv1 : t1.value = TokenValue.str "mas")
    (h2 : tokNext { tk1 with trace := tk1.trace ++
        [⟨Source.engine, ⟨t1.line, t1.pos, MessageLevel.WARN,
          "Unexpected unit type mas ignored"⟩⟩] } = TokRes.tok tk2 t2)
    (hk2 : t2.kind = TokenKind.END_UNITS) :
    ERes.isOk (checkUnits gp UnitsType.LENGTH (f + 3) ps) = true ∧
    (ERes.state (checkUnits gp UnitsType.LENGTH (f + 3) ps)).pmessages =
      ps.pmessages ++
        [⟨t1.line, t1.pos, MessageLevel.WARN, "Unexpected unit type mas ignored"⟩] := by
  obtain ⟨ptok, pmsgs, psaved⟩ := ps
  simp only at hsaved h1 ⊢
  subst hsaved
  have hs : "Unexpected unit type " ++ "mas" ++ " ignored" =
      "Unexpected unit type mas ignored" := rfl
  simp [checkUnits, checkUnitsLoop, nextTokenBare, nextToken, ERes.bind, h1, h2,
    hk1, hv1, hk2, pwarn, pyStrValue, unitTypesGet, hs, ERes.isOk, ERes.state]

/-- Witness for C7 at the concrete unit block `<mas>` (opening `<` already
consumed). -/
theorem c7_length_units_mas_warns_witness :
    (pInit ["mas>"]).saved = none ∧
    tokNext (pInit ["mas>"]).tok =
      TokRes.tok
        { lines := [], line := "mas>".toList, pos := 3, lineNumber := 1,
          messages := [], trace := [] }
        ⟨TokenKind.NAME, 1, 0, TokenValue.str "mas"⟩ ∧
    ERes.isOk (checkUnits gpNone UnitsType.LENGTH (7 + 3) (pInit ["mas>"])) = true ∧
    (ERes.state (checkUnits gpNone UnitsType.LENGTH (7 + 3) (pInit ["mas>"]))).pmessages =
      (pInit ["mas>"]).pmessages ++
        [⟨1, 0, MessageLevel.WARN, "Unexpected unit type mas ignored"⟩] :=
  ⟨rfl, by decide,
   c7_length_units_mas_warns gpNone (pInit ["mas>"])
     { lines := [], line := "mas>".toList, pos := 3, lineNumber := 1,
       messages := [], trace := [] }
     { lines := [], line := "mas>".toList, pos := 4, lineNumber := 1,
       messages := [],
       trace :=
         [⟨Source.engine, ⟨1, 0, MessageLevel.WARN, "Unexpected unit type mas ignored"⟩⟩] }
     ⟨TokenKind.NAME, 1, 0, TokenValue.str "mas"⟩
     ⟨TokenKind.END_UNITS, 1, 3, TokenValue.none⟩ 7
     rfl (by decide) rfl rfl (by decide) rfl⟩

/-! ## Order facts about `(line, pos)` keys -/

theorem keyLe_refl (a : Nat × Nat) : keyLe a a = true := by
  obtain ⟨a1, a2⟩ := a
  simp [keyLe]

theorem keyLe_trans {a b c : Nat × Nat} (h1 : keyLe a b = true)
    (h2 : keyLe b c = true) : keyLe a c = true := by
  obtain ⟨a1, a2⟩ := a
  obtain ⟨b1, b2⟩ := b
  obtain ⟨c1, c2⟩ := c
  simp [keyLe] at *
  omega

theorem keyLe_of_keyLt {a b : Nat × Nat} (h : keyLt a b = true) : keyLe a b = true := by
  obtain ⟨a1, a2⟩ := a
  obtain ⟨b1, b2⟩ := b
  simp [keyLe, keyLt] at *
  omega

theorem keyLt_of_keyLt_of_keyLe {a b c : Nat × Nat} (h1 : keyLt a b = true)
    (h2 : keyLe b c = true) : keyLt a c = true := by
  obtain ⟨a1, a2⟩ := a
  obtain ⟨b1, b2⟩ := b
  obtain ⟨c1, c2⟩ := c
  simp [keyLe, keyLt] at *
  omega

theorem ne_of_keyLt {a b : Nat × Nat} (h : keyLt a b = true) : a ≠ b := by
  obtain ⟨a1, a2⟩ := a
  obtain ⟨b1, b2⟩ := b
  simp [keyLt] at *
  omega

theorem keyLe_of_not_keyLt {a b : Nat × Nat} (h : ¬keyLt a b = true) :
    keyLe b a = true := by
  obtain ⟨a1, a2⟩ := a
  obtain ⟨b1, b2⟩ := b
  simp [keyLe, keyLt] at *
  omega

theorem keyLe_antisymm {a b : Nat × Nat} (h1 : keyLe a b = true)
    (h2 : keyLe b a = true) : a = b := by
  obtain ⟨a1, a2⟩ := a
  obtain ⟨b1, b2⟩ := b
  simp [keyLe] at *
  omega

/-! ## The stable sort: sortedness, stability, canonicity -/

theorem mem_insertByPos {y m : ParsingMessage} {l : List ParsingMessage} :
    y ∈ insertByPos m l ↔ y = m ∨ y ∈ l := by
  induction l with
  | nil => simp [insertByPos]
  | cons x xs ih =>
    rw [insertByPos]
    by_cases h : keyLt (posKey x) (posKey m) = true
    · rw [if_pos h]
      simp only [List.mem_cons, ih]
      tauto
    · rw [if_neg h]
      simp only [List.mem_cons]

theorem pairwise_insertByPos {m : ParsingMessage} {l : List ParsingMessage}
    (h : l.Pairwise fun a b => keyLe (posKey a) (posKey b) = true) :
    (insertByPos m l).Pairwise fun a b => keyLe (posKey a) (posKey b) = true := by
  induction l with
  | nil => simp [insertByPos]
  | cons x xs ih =>
    rw [List.pairwise_cons] at h
    by_cases hc : keyLt (posKey x) (posKey m) = true
    · rw [insertByPos, if_pos hc, List.pairwise_cons]
      refine ⟨?_, ih h.2⟩
      intro y hy
      rcases mem_insertByPos.mp hy with rfl | hy2
      · exact keyLe_of_keyLt hc
      · exact h.1 y hy2
    · rw [insertByPos, if_neg hc, List.pairwise_cons]
      refine ⟨?_, List.pairwise_cons.mpr h⟩
      intro y hy
      rcases List.mem_cons.mp hy with rfl | hy2
      · exact keyLe_of_not_keyLt hc
      · exact keyLe_trans (keyLe_of_not_keyLt hc) (h.1 y hy2)

theorem sorted_sortByPosKey (l : List ParsingMessage) :
    (sortByPosKey l).Pairwise fun a b => keyLe (posKey a) (posKey b) = true := by
  induction l with
  | nil => simp [sortByPosKey]
  | cons x xs ih => exact pairwise_insertByPos ih

theorem filter_insertByPos (k : Nat × Nat) (m : ParsingMessage)
    (l : List ParsingMessage) :
    (insertByPos m l).filter (fun x => posKey x == k) =
      (m :: l).filter (fun x => posKey x == k) := by
  induction l with
  | nil => rfl
  | cons x xs ih =>
    by_cases hc : keyLt (posKey x) (posKey m) = true
    · rw [insertByPos, if_pos hc]
      by_cases hx : posKey x == k
      · have hm : ¬(posKey m == k) := by
          have hne : posKey x ≠ posKey m := ne_of_keyLt hc
          intro hmk
          have hxk : posKey x = k := by
            simpa using hx
          have hmk2 : posKey m = k := by
            simpa using hmk
          exact hne (hxk.trans hmk2.symm)
        simp only [List.filter_cons, hx, if_pos]
        rw [ih]
        simp only [List.filter_cons, hm]
        simp [hx, hm]
      · simp only [List.filter_cons]
        rw [ih]
        simp only [List.filter_cons]
        simp [hx]
    · rw [insertByPos, if_neg hc]

theorem filter_sortByPosKey (k : Nat × Nat) (l : List ParsingMessage) :
    (sortByPosKey l).filter (fun x => posKey x == k) =
      l.filter (fun x => posKey x == k) := by
  induction l with
  | nil => rfl
  | cons x xs ih =>
    rw [sortByPosKey, filter_insertByPos]
    simp only [List.filter_cons]
    rw [ih]

/-- Two key-sorted lists with identical per-key sublists are equal: the
output of one stable sort is the output of every stable sort. -/
theorem sorted_eq_of_filter_eq :
    ∀ (l₁ l₂ : List ParsingMessage),
      (l₁.Pairwise fun a b => keyLe (posKey a) (posKey b) = true) →
      (l₂.Pairwise fun a b => keyLe (posKey a) (posKey b) = true) →
      (∀ k, l₁.filter (fun x => posKey x == k) = l₂.filter (fun x => posKey x == k)) →
      l₁ = l₂
  | [], [], _, _, _ => rfl
  | [], b :: l₂', _, _, hf => by
    have hb := hf (posKey b)
    simp [List.filter_cons] at hb
  | a :: l₁', [], _, _, hf => by
    have ha := hf (posKey a)
    simp [List.filter_cons] at ha
  | a :: l₁', b :: l₂', h₁, h₂, hf => by
    rw [List.pairwise_cons] at h₁ h₂
    have ha2 : a ∈ b :: l₂' := by
      have hmem : a ∈ (b :: l₂').filter (fun x => posKey x == posKey a) := by
        rw [← hf (posKey a)]
        simp [List.filter_cons]
      exact (List.mem_filter.mp hmem).1
    have hb2 : b ∈ a :: l₁' := by
      have hmem : b ∈ (a :: l₁').filter (fun x => posKey x == posKey b) := by
        rw [hf (posKey b)]
        simp [List.filter_cons]
      exact (List.mem_filter.mp hmem).1
    have hba : keyLe (posKey b) (posKey a) = true := by
      rcases List.mem_cons.mp ha2 with heq | hmem
      · rw [heq]
        exact keyLe_refl _
      · exact h₂.1 a hmem
    have hab : keyLe (posKey a) (posKey b) = true := by
      rcases List.mem_cons.mp hb2 with heq | hmem
      · rw [heq]
        exact keyLe_refl _
      · exact h₁.1 b hmem
    have hk : posKey a = posKey b := keyLe_antisymm hab hba
    have h1 := hf (posKey a)
    simp only [List.filter_cons, hk, beq_self_eq_true, if_pos] at h1
    injection h1 with hhead htail
    subst hhead
    have hrest : l₁' = l₂' := by
      apply sorted_eq_of_filter_eq l₁' l₂' h₁.2 h₂.2
      intro k
      have h2 := hf k
      simp only [List.filter_cons] at h2
      by_cases hak : (posKey a == k) = true
      · rw [hak] at h2
        simp only [if_pos] at h2
        injection h2
      · rw [Bool.eq_false_iff.mpr hak] at h2
        simpa using h2
    rw [hrest]

/-! ## Trace projection lemmas -/

theorem lexerMsgsOf_append (t u : List TraceEntry) :
    lexerMsgsOf (t ++ u) = lexerMsgsOf t ++ lexerMsgsOf u := by
  simp [lexerMsgsOf]

theorem engineMsgsOf_append (t u : List TraceEntry) :
    engineMsgsOf (t ++ u) = engineMsgsOf t ++ engineMsgsOf u := by
  simp [engineMsgsOf]

theorem lexerMsgsOf_mapLex (d : List ParsingMessage) :
    lexerMsgsOf (d.map fun m => ⟨Source.lexer, m⟩) = d := by
  induction d with
  | nil => rfl
  | cons m ms ih => simpa [lexerMsgsOf] using ih

theorem engineMsgsOf_mapLex (d : List ParsingMessage) :
    engineMsgsOf (d.map fun m => ⟨Source.lexer, m⟩) = [] := by
  induction d with
  | nil => rfl
  | cons m ms ih => simp [engineMsgsOf]

theorem lexerMsgsOf_engineEntry (m : ParsingMessage) :
    lexerMsgsOf [⟨Source.engine, m⟩] = [] := rfl

theorem engineMsgsOf_engineEntry (m : ParsingMessage) :
    engineMsgsOf [⟨Source.engine, m⟩] = [m] := rfl

theorem mem_lexerMsgsOf {m : ParsingMessage} {tr : List TraceEntry} :
    m ∈ lexerMsgsOf tr ↔ ∃ e ∈ tr, e.src = Source.lexer ∧ e.msg = m := by
  simp [lexerMsgsOf, List.mem_map, List.mem_filter]
  constructor
  · rintro ⟨e, ⟨he, hsrc⟩, hmsg⟩
    exact ⟨e, he, hsrc, hmsg⟩
  · rintro ⟨e, he, hsrc, hmsg⟩
    exact ⟨e, ⟨he, hsrc⟩, hmsg⟩

theorem mem_engineMsgsOf {m : ParsingMessage} {tr : List TraceEntry} :
    m ∈ engineMsgsOf tr ↔ ∃ e ∈ tr, e.src = Source.engine ∧ e.msg = m := by
  simp [engineMsgsOf, List.mem_map, List.mem_filter]
  constructor
  · rintro ⟨e, ⟨he, hsrc⟩, hmsg⟩
    exact ⟨e, he, hsrc, hmsg⟩
  · rintro ⟨e, he, hsrc, hmsg⟩
    exact ⟨e, ⟨he, hsrc⟩, hmsg⟩

/-! ## `NoLateTie` preservation -/

theorem noLateTie_append_engine {tr : List TraceEntry} (m : ParsingMessage)
    (h : NoLateTie tr) : NoLateTie (tr ++ [⟨Source.engine, m⟩]) := by
  rw [NoLateTie, List.pairwise_append]
  refine ⟨h, by simp, ?_⟩
  intro a _ b hb
  simp only [List.mem_singleton] at hb
  subst hb
  intro _ hlex
  exact absurd hlex (by simp)

theorem noLateTie_append_lex_batch {tr : List TraceEntry} {d : List ParsingMessage}
    (h : NoLateTie tr)
    (hne : ∀ e ∈ tr, e.src = Source.engine → ∀ m ∈ d, posKey e.msg ≠ posKey m) :
    NoLateTie (tr ++ d.map fun m => ⟨Source.lexer, m⟩) := by
  rw [NoLateTie, List.pairwise_append]
  refine ⟨h, ?_, ?_⟩
  · rw [List.pairwise_map]
    exact List.pairwise_of_forall fun a b hsrc => absurd hsrc (by simp)
  · intro a ha b hb hsrc _
    rcases List.mem_map.mp hb with ⟨m, hm, rfl⟩
    exact hne a ha hsrc m hm

/-- The filter at any single key of the concatenated projections equals
the filter of the chronological sequence, given no late cross ties. -/
theorem filter_projections_eq_trace {tr : List TraceEntry} (h : NoLateTie tr)
    (k : Nat × Nat) :
    (lexerMsgsOf tr ++ engineMsgsOf tr).filter (fun m => posKey m == k) =
      (traceMsgsOf tr).filter (fun m => posKey m == k) := by
  induction tr with
  | nil => rfl
  | cons e rest ih =>
    rw [NoLateTie, List.pairwise_cons] at h
    have ihr := ih h.2
    cases hsrc : e.src with
    | lexer =>
      have hl : lexerMsgsOf (e :: rest) = e.msg :: lexerMsgsOf rest := by
        simp [lexerMsgsOf, List.filter_cons, hsrc]
      have heng : engineMsgsOf (e :: rest) = engineMsgsOf rest := by
        simp [engineMsgsOf, List.filter_cons, hsrc]
      have ht : traceMsgsOf (e :: rest) = e.msg :: traceMsgsOf rest := rfl
      rw [hl, heng, ht, List.cons_append, List.filter_cons, List.filter_cons]
      by_cases hek : (posKey e.msg == k) = true
      · rw [hek]
        simp only [if_pos]
        rw [List.filter_append] at ihr ⊢
        rw [ihr]
      · rw [Bool.eq_false_iff.mpr hek]
        simp only [Bool.false_eq_true, if_neg, if_false]
        rw [List.filter_append] at ihr ⊢
        rw [ihr]
    | engine =>
      have hl : lexerMsgsOf (e :: rest) = lexerMsgsOf rest := by
        simp [lexerMsgsOf, List.filter_cons, hsrc]
      have heng : engineMsgsOf (e :: rest) = e.msg :: engineMsgsOf rest := by
        simp [engineMsgsOf, List.filter_cons, hsrc]
      have ht : traceMsgsOf (e :: rest) = e.msg :: traceMsgsOf rest := rfl
      rw [hl, heng, ht]
      by_cases hek : (posKey e.msg == k) = true
      · have hlexnil : (lexerMsgsOf rest).filter (fun m => posKey m == k) = [] := by
          rw [List.filter_eq_nil_iff]
          intro m hm
          rcases mem_lexerMsgsOf.mp hm with ⟨b, hb, hbsrc, rfl⟩
          have hne := h.1 b hb hsrc hbsrc
          intro hcontra
          apply hne
          have h1 : posKey e.msg = k := by simpa using hek
          have h2 : posKey b.msg = k := by simpa using hcontra
          rw [h1, h2]
        rw [List.filter_append, hlexnil, List.filter_cons, hek]
        simp only [if_pos, List.nil_append]
        rw [List.filter_cons, hek]
        simp only [if_pos]
        rw [List.filter_append, hlexnil, List.nil_append] at ihr
        rw [ihr]
      · rw [List.filter_append, List.filter_cons, Bool.eq_false_iff.mpr hek]
        simp only [Bool.false_eq_true, if_neg, if_false]
        rw [List.filter_cons, Bool.eq_false_iff.mpr hek]
        simp only [Bool.false_eq_true, if_neg, if_false]
        rw [List.filter_append] at ihr
        rw [ihr]

/-- With no late cross-source ties, the stable sort of
`tokenizer.messages + self._messages` is the stable sort of the
chronological emission sequence. -/
theorem sort_projections_eq_sort_trace {tr : List TraceEntry} (h : NoLateTie tr) :
    sortByPosKey (lexerMsgsOf tr ++ engineMsgsOf tr) =
      sortByPosKey (traceMsgsOf tr) := by
  apply sorted_eq_of_filter_eq _ _ (sorted_sortByPosKey _) (sorted_sortByPosKey _)
  intro k
  rw [filter_sortByPosKey, filter_sortByPosKey]
  exact filter_projections_eq_trace h k

/-- The reported message list of a state satisfying the weak invariant is
the stable sort of the chronological emission sequence. -/
theorem messagesProp_eq_sorted_trace {s : PState} (h : WeakInv s) :
    messagesProp s = sortByPosKey (traceMsgsOf s.tok.trace) := by
  obtain ⟨hm, hp, hn⟩ := h
  rw [messagesProp, hm, hp]
  exact sort_projections_eq_sort_trace hn

/-! ## Tokenizer step discipline: scan monotonicity and emission deltas -/

theorem tokDelta_refl (s : TokState) : TokDelta s s :=
  ⟨keyLe_refl _, [], by simp, by simp, by simp⟩

theorem tokDelta_trans {s u v : TokState} (h1 : TokDelta s u) (h2 : TokDelta u v) :
    TokDelta s v := by
  obtain ⟨hle1, d1, hm1, ht1, hk1⟩ := h1
  obtain ⟨hle2, d2, hm2, ht2, hk2⟩ := h2
  refine ⟨keyLe_trans hle1 hle2, d1 ++ d2, ?_, ?_, ?_⟩
  · rw [hm2, hm1, List.append_assoc]
  · rw [ht2, ht1, List.append_assoc, List.map_append]
  · intro m hm
    rcases List.mem_append.mp hm with h | h
    · exact hk1 m h
    · exact keyLe_trans hle1 (hk2 m h)

theorem tokDelta_setPos (s : TokState) (p : Nat) (hp : s.pos ≤ p) :
    TokDelta s { s with pos := p } := by
  refine ⟨?_, [], by simp, by simp, by simp⟩
  simp [scanKey, keyLe]
  omega

theorem tokDelta_twarn (s : TokState) (msg : String) : TokDelta s (twarn s msg) := by
  refine ⟨keyLe_refl _, [⟨s.lineNumber, s.pos, MessageLevel.WARN, msg⟩], rfl, rfl, ?_⟩
  intro m hm
  rcases List.mem_singleton.mp hm with rfl
  exact keyLe_refl _

theorem tokDelta_terrAppend (s : TokState) (msg : String) :
    TokDelta s (terrAppend s msg) := by
  refine ⟨keyLe_refl _, [⟨s.lineNumber, s.pos, MessageLevel.ERROR, msg⟩], rfl, rfl, ?_⟩
  intro m hm
  rcases List.mem_singleton.mp hm with rfl
  exact keyLe_refl _

theorem tokDelta_readLine {s u : TokState} (h : readLine s = some u) :
    TokDelta s u := by
  rw [readLine] at h
  cases hl : s.lines with
  | nil => rw [hl] at h; exact absurd h (by simp)
  | cons l rest =>
    rw [hl] at h
    injection h with h
    subst h
    refine ⟨?_, [], by simp, by simp, by simp⟩
    simp [scanKey, keyLe]

theorem parseEscape_delta (s : TokState) : TokDelta s (parseEscape s).state := by
  rw [parseEscape]
  by_cases h1 : s.pos = s.line.length
  · rw [if_pos h1]
    exact tokDelta_terrAppend s _
  · rw [if_neg h1]
    by_cases h2 : s.pos < s.line.length
    · rw [dif_pos h2]
      have d1 : TokDelta s { s with pos := s.pos + 1 } :=
        tokDelta_setPos s (s.pos + 1) (by omega)
      by_cases hq : s.line.get ⟨s.pos, h2⟩ = '"' ∨ s.line.get ⟨s.pos, h2⟩ = '\\'
      · rw [if_pos hq]
        exact d1
      · rw [if_neg hq]
        by_cases hn : s.line.get ⟨s.pos, h2⟩ = 'n'
        · rw [if_pos hn]
          exact d1
        · rw [if_neg hn]
          by_cases hu : s.line.get ⟨s.pos, h2⟩ = 'u'
          · rw [if_pos hu]
            have d2 : TokDelta s { s with pos := s.pos + 1 + 4 } :=
              tokDelta_setPos s (s.pos + 1 + 4) (by omega)
            by_cases hlen : s.pos + 1 + 4 ≥ s.line.length
            · simp only [if_pos hlen]
              exact tokDelta_trans d2 (tokDelta_terrAppend _ _)
            · simp only [if_neg hlen]
              cases hhex : pyIntHex ((s.line.drop (s.pos + 1)).take 4) with
              | none => exact d2
              | some n =>
                by_cases hr : n < 0 ∨ n > 0x10FFFF
                · simp only [if_pos hr]
                  exact d2
                · simp only [if_neg hr]
                  by_cases hsur : 0xD800 ≤ n ∧ n ≤ 0xDFFF
                  · simp only [if_pos hsur]
                    exact d2
                  · simp only [if_neg hsur]
                    exact d2
          · rw [if_neg hu]
            exact d1
    · rw [dif_neg h2]
      exact tokDelta_refl s

theorem tokSpec_of_delta {s u : TokState} {r : TokRes} (hd : TokDelta s u)
    (hr : TokSpec u r) : TokSpec s r := by
  cases r with
  | tok v t => exact ⟨tokDelta_trans hd hr.1, hr.2⟩
  | stop v => exact tokDelta_trans hd hr
  | perror v => exact tokDelta_trans hd hr
  | crash v e => exact tokDelta_trans hd hr
  | noFuel v => exact tokDelta_trans hd hr

theorem readStringLoop_spec (sl sp : Nat) :
    ∀ (fuel : Nat) (out : List Char) (s : TokState),
      keyLt (sl, sp) (scanKey s) = true →
      TokSpec s (readStringLoop sl sp out fuel s) := by
  intro fuel
  induction fuel with
  | zero =>
    intro out s _
    rw [readStringLoop]
    exact tokDelta_refl s
  | succ f ih =>
    intro out s h
    rw [readStringLoop]
    by_cases h1 : s.pos = s.line.length
    · rw [if_pos h1]
      cases hrl : readLine s with
      | none => exact tokDelta_terrAppend s _
      | some s1 =>
        have hd := tokDelta_readLine hrl
        exact tokSpec_of_delta hd (ih out s1 (keyLt_of_keyLt_of_keyLe h hd.1))
    · rw [if_neg h1]
      by_cases h2 : s.pos < s.line.length
      · rw [dif_pos h2]
        have d1 : TokDelta s { s with pos := s.pos + 1 } :=
          tokDelta_setPos s (s.pos + 1) (by omega)
        have h1' : keyLt (sl, sp) (scanKey { s with pos := s.pos + 1 }) = true :=
          keyLt_of_keyLt_of_keyLe h d1.1
        by_cases hq : s.line.get ⟨s.pos, h2⟩ = '"'
        · rw [if_pos hq]
          exact ⟨d1, h1'⟩
        · rw [if_neg hq]
          by_cases hb : s.line.get ⟨s.pos, h2⟩ = '\\'
          · rw [if_pos hb]
            cases hesc : parseEscape { s with pos := s.pos + 1 } with
            | chr s2 c2 =>
              dsimp only
              have hd2 : TokDelta s s2 := by
                have := parseEscape_delta { s with pos := s.pos + 1 }
                rw [hesc] at this
                exact tokDelta_trans d1 this
              by_cases hrep : c2 = '�'
              · rw [if_pos hrep]
                have hd3 : TokDelta s (twarn s2 "Invalid UTF-8 in string literal") :=
                  tokDelta_trans hd2 (tokDelta_twarn s2 _)
                exact tokSpec_of_delta hd3
                  (ih (out ++ [c2]) _ (keyLt_of_keyLt_of_keyLe h hd3.1))
              · rw [if_neg hrep]
                exact tokSpec_of_delta hd2
                  (ih (out ++ [c2]) s2 (keyLt_of_keyLt_of_keyLe h hd2.1))
            | noChar s2 =>
              dsimp only
              have hd2 : TokDelta s s2 := by
                have := parseEscape_delta { s with pos := s.pos + 1 }
                rw [hesc] at this
                exact tokDelta_trans d1 this
              exact hd2
            | perror s2 =>
              dsimp only
              have hd2 : TokDelta s s2 := by
                have := parseEscape_delta { s with pos := s.pos + 1 }
                rw [hesc] at this
                exact tokDelta_trans d1 this
              exact hd2
            | crash s2 e =>
              dsimp only
              have hd2 : TokDelta s s2 := by
                have := parseEscape_delta { s with pos := s.pos + 1 }
                rw [hesc] at this
                exact tokDelta_trans d1 this
              exact hd2
          · rw [if_neg hb]
            by_cases hrep : s.line.get ⟨s.pos, h2⟩ = '�'
            · rw [if_pos hrep]
              have hd3 :
                  TokDelta s
                    (twarn { s with pos := s.pos + 1 } "Invalid UTF-8 in string literal") :=
                tokDelta_trans d1 (tokDelta_twarn _ _)
              exact tokSpec_of_delta hd3
                (ih (out ++ [s.line.get ⟨s.pos, h2⟩]) _
                  (keyLt_of_keyLt_of_keyLe h hd3.1))
            · rw [if_neg hrep]
              exact tokSpec_of_delta d1
                (ih (out ++ [s.line.get ⟨s.pos, h2⟩]) _ h1')
      · rw [dif_neg h2]
        exact tokDelta_refl s

theorem nameMatch_lt {line : List Char} {pos : Nat} {txt : String} {e : Nat}
    (h : nameMatch line pos = some (txt, e)) : pos < e := by
  rw [nameMatch] at h
  cases hd : line.drop pos with
  | nil => rw [hd] at h; exact absurd h (by simp)
  | cons c cs =>
    rw [hd] at h
    dsimp only at h
    by_cases hs : isNameStart c = true
    · rw [if_pos hs] at h
      injection h with h
      injection h with h1 h2
      omega
    · rw [if_neg hs] at h
      exact absurd h (by simp)

theorem signSplit_le {rest : List Char} {pos : Nat} {sign : Int} {r1 : List Char}
    {pos1 : Nat} (h : signSplit rest pos = (sign, r1, pos1)) :
    pos ≤ pos1 ∧ pos1 ≤ pos + 1 := by
  rw [signSplit.eq_def] at h
  cases rest with
  | nil =>
    simp only [Prod.mk.injEq] at h
    omega
  | cons c r =>
    dsimp only at h
    split at h
    · simp only [Prod.mk.injEq] at h
      omega
    · split at h
      · simp only [Prod.mk.injEq] at h
        omega
      · simp only [Prod.mk.injEq] at h
        omega

theorem expDigitsSplit_le (r3 : List Char) (pos2 : Nat) :
    pos2 ≤ (expDigitsSplit r3 pos2).2 := by
  rw [expDigitsSplit]
  rcases hs : signSplit r3 (pos2 + 1) with ⟨es, r4, pos4⟩
  have hle := signSplit_le hs
  dsimp only
  split <;> dsimp only <;> omega

theorem expSplit_le (cs : List Char) (pos2 : Nat) : pos2 ≤ (expSplit cs pos2).2 := by
  rw [expSplit.eq_def]
  cases cs with
  | nil =>
    dsimp only
    omega
  | cons c r3 =>
    dsimp only
    split
    · exact expDigitsSplit_le _ _
    · omega

theorem mantissaSplit_lt {r1 : List Char} {pos1 : Nat} {ip fp : List Char}
    {pos2 : Nat} (h : mantissaSplit r1 pos1 = some (ip, fp, pos2)) : pos1 < pos2 := by
  rw [mantissaSplit.eq_def] at h
  dsimp only at h
  split at h
  · cases r1 with
    | nil => exact absurd h (by simp)
    | cons c r2 =>
      dsimp only at h
      split at h
      · split at h
        · exact absurd h (by simp)
        · simp only [Option.some.injEq, Prod.mk.injEq] at h
          omega
      · exact absurd h (by simp)
  · rename_i hne
    have hlen : 1 ≤ (r1.takeWhile isDigitChar).length := by
      rcases hl : (r1.takeWhile isDigitChar) with _ | ⟨x, xs⟩
      · rw [hl] at hne
        simp at hne
      · simp
    cases hd : r1.drop (r1.takeWhile isDigitChar).length with
    | nil =>
      rw [hd] at h
      simp only [Option.some.injEq, Prod.mk.injEq] at h
      omega
    | cons c r2 =>
      rw [hd] at h
      dsimp only at h
      split at h <;>
        (simp only [Option.some.injEq, Prod.mk.injEq] at h; omega)

theorem numberMatch_lt {line : List Char} {pos : Nat} {p : NumParts} {e : Nat}
    (h : numberMatch line pos = some (p, e)) : pos < e := by
  rw [numberMatch] at h
  rcases hs : signSplit (line.drop pos) pos with ⟨sign, r1, pos1⟩
  rw [hs] at h
  dsimp only at h
  cases hm : mantissaSplit r1 pos1 with
  | none => rw [hm] at h; exact absurd h (by simp)
  | some v =>
    rcases v with ⟨ip, fp, pos2⟩
    rw [hm] at h
    dsimp only at h
    rcases he : expSplit (line.drop pos2) pos2 with ⟨ev, pos3⟩
    rw [he] at h
    dsimp only at h
    injection h with h
    injection h with h1 h2
    have hle1 := (signSplit_le hs).1
    have hlt := mantissaSplit_lt hm
    have hle2 := expSplit_le (line.drop pos2) pos2
    rw [he] at hle2
    dsimp only at hle2
    omega

/-- Every pull on the tokenizer respects the step discipline: the scan
position only advances, emissions are lexer-tagged at or beyond the
initial scan position, and a delivered token starts strictly before the
final scan position. -/
theorem tokInner_spec : ∀ (fuel : Nat) (s : TokState), TokSpec s (tokInner fuel s) := by
  intro fuel
  induction fuel with
  | zero =>
    intro s
    rw [tokInner]
    exact tokDelta_refl s
  | succ f ih =>
    intro s
    rw [tokInner]
    by_cases h1 : s.pos = s.line.length
    · rw [if_pos h1]
      cases hrl : readLine s with
      | none => exact tokDelta_refl s
      | some s1 => exact tokSpec_of_delta (tokDelta_readLine hrl) (ih s1)
    · rw [if_neg h1]
      by_cases h2 : s.pos < s.line.length
      · rw [dif_pos h2]
        have hkey1 :
            keyLt (s.lineNumber, s.pos) (scanKey { s with pos := s.pos + 1 }) = true := by
          simp [scanKey, keyLt]
        have d1 : TokDelta s { s with pos := s.pos + 1 } :=
          tokDelta_setPos s (s.pos + 1) (by omega)
        by_cases hws : s.line.get ⟨s.pos, h2⟩ = '\t' ∨ s.line.get ⟨s.pos, h2⟩ = ' '
        · rw [if_pos hws]
          exact tokSpec_of_delta d1 (ih _)
        · rw [if_neg hws]
          by_cases hcm : s.line.get ⟨s.pos, h2⟩ = '#'
          · rw [if_pos hcm]
            exact tokSpec_of_delta (tokDelta_setPos s s.line.length (by omega)) (ih _)
          · rw [if_neg hcm]
            by_cases hq : s.line.get ⟨s.pos, h2⟩ = '"'
            · rw [if_pos hq]
              rw [readString]
              exact tokSpec_of_delta d1
                (readStringLoop_spec s.lineNumber s.pos f [] _ hkey1)
            · rw [if_neg hq]
              by_cases hc1 : s.line.get ⟨s.pos, h2⟩ = '{'
              · rw [if_pos hc1]
                exact ⟨d1, hkey1⟩
              · rw [if_neg hc1]
                by_cases hc2 : s.line.get ⟨s.pos, h2⟩ = '}'
                · rw [if_pos hc2]
                  exact ⟨d1, hkey1⟩
                · rw [if_neg hc2]
                  by_cases hc3 : s.line.get ⟨s.pos, h2⟩ = '['
                  · rw [if_pos hc3]
                    exact ⟨d1, hkey1⟩
                  · rw [if_neg hc3]
                    by_cases hc4 : s.line.get ⟨s.pos, h2⟩ = ']'
                    · rw [if_pos hc4]
                      exact ⟨d1, hkey1⟩
                    · rw [if_neg hc4]
                      by_cases hc5 : s.line.get ⟨s.pos, h2⟩ = '<'
                      · rw [if_pos hc5]
                        exact ⟨d1, hkey1⟩
                      · rw [if_neg hc5]
                        by_cases hc6 : s.line.get ⟨s.pos, h2⟩ = '>'
                        · rw [if_pos hc6]
                          exact ⟨d1, hkey1⟩
                        · rw [if_neg hc6]
                          by_cases hc7 : s.line.get ⟨s.pos, h2⟩ = '='
                          · rw [if_pos hc7]
                            exact ⟨d1, hkey1⟩
                          · rw [if_neg hc7]
                            by_cases hc8 : s.line.get ⟨s.pos, h2⟩ = '|'
                            · rw [if_pos hc8]
                              exact ⟨d1, hkey1⟩
                            · rw [if_neg hc8]
                              cases hnm : nameMatch s.line s.pos with
                              | some v =>
                                rcases v with ⟨txt, endPos⟩
                                dsimp only
                                have hlt := nameMatch_lt hnm
                                have dp : TokDelta s { s with pos := endPos } :=
                                  tokDelta_setPos s endPos (by omega)
                                have hkeyE :
                                    keyLt (s.lineNumber, s.pos)
                                      (scanKey { s with pos := endPos }) = true := by
                                  simp [scanKey, keyLt]
                                  omega
                                split
                                · exact ⟨dp, hkeyE⟩
                                · split
                                  · exact ⟨dp, hkeyE⟩
                                  · exact ⟨dp, hkeyE⟩
                              | none =>
                                dsimp only
                                cases hnum : numberMatch s.line s.pos with
                                | some v =>
                                  rcases v with ⟨parts, endPos⟩
                                  dsimp only
                                  have hlt := numberMatch_lt hnum
                                  refine ⟨tokDelta_setPos s endPos (by omega), ?_⟩
                                  simp [scanKey, keyLt]
                                  omega
                                | none =>
                                  dsimp only
                                  have dw : TokDelta s
                                      { twarn s
                                          ("Unexpected character " ++
                                            pyRepr (String.mk [s.line.get ⟨s.pos, h2⟩]) ++
                                            " in file") with
                                        pos :=
                                          (twarn s
                                            ("Unexpected character " ++
                                              pyRepr
                                                (String.mk [s.line.get ⟨s.pos, h2⟩]) ++
                                              " in file")).pos + 1 } :=
                                    tokDelta_trans (tokDelta_twarn s _)
                                      (tokDelta_setPos _ _ (by omega))
                                  exact tokSpec_of_delta dw (ih _)
      · rw [dif_neg h2]
        exact tokDelta_refl s

/-- `TokSpec` for the public pull `tokNext`. -/
theorem tokNext_spec (s : TokState) : TokSpec s (tokNext s) := by
  rw [tokNext]
  have h := tokInner_spec (tokFuel s) s
  cases hr : tokInner (tokFuel s) s with
  | tok u t => rw [hr] at h; exact h
  | stop u => rw [hr] at h; exact h
  | perror u => rw [hr] at h; exact h
  | crash u e => rw [hr] at h; exact h
  | noFuel u => rw [hr] at h; exact h

/-! ## Engine primitives preserve the invariant -/

theorem pwarn_weak {s : PState} (l p : Nat) (msg : String) (h : WeakInv s) :
    WeakInv (pwarn s l p msg) := by
  obtain ⟨hm, hp, hn⟩ := h
  refine ⟨?_, ?_, ?_⟩
  · simp only [pwarn]
    rw [lexerMsgsOf_append, lexerMsgsOf_engineEntry, List.append_nil]
    exact hm
  · simp only [pwarn]
    rw [engineMsgsOf_append, engineMsgsOf_engineEntry, hp]
  · exact noLateTie_append_engine _ hn

theorem perrAppend_weak {s : PState} (l p : Nat) (msg : String) (h : WeakInv s) :
    WeakInv (perrAppend s l p msg) := by
  obtain ⟨hm, hp, hn⟩ := h
  refine ⟨?_, ?_, ?_⟩
  · simp only [perrAppend]
    rw [lexerMsgsOf_append, lexerMsgsOf_engineEntry, List.append_nil]
    exact hm
  · simp only [perrAppend]
    rw [engineMsgsOf_append, engineMsgsOf_engineEntry, hp]
  · exact noLateTie_append_engine _ hn

theorem pwarn_inv {s : PState} {l p : Nat} (msg : String) (h : EngineInv s)
    (hpos : keyLt (l, p) (scanKey s.tok) = true) : EngineInv (pwarn s l p msg) := by
  obtain ⟨hw, hbelow, hsaved⟩ := h
  refine ⟨pwarn_weak l p msg hw, ?_, ?_⟩
  · intro m hm
    rcases List.mem_append.mp hm with hold | hnew
    · exact hbelow m hold
    · rcases List.mem_singleton.mp hnew with rfl
      exact hpos
  · intro t ht
    exact hsaved t ht

theorem pushBack_inv {s : PState} {t : Token} (h : EngineInv s)
    (hpos : keyLt (t.line, t.pos) (scanKey s.tok) = true) :
    EngineInv (pushBack s t) := by
  obtain ⟨hw, hbelow, hsaved⟩ := h
  refine ⟨hw, hbelow, ?_⟩
  intro u hu
  simp only [pushBack] at hu
  injection hu with hu
  subst hu
  exact hpos

/-- A fresh pull's state update preserves the invariant when there is no
pushed-back token. -/
theorem pull_inv {s : PState} {tk : TokState} (h : EngineInv s)
    (hsv : s.saved = none) (hd : TokDelta s.tok tk) : EngineInv { s with tok := tk } := by
  obtain ⟨⟨hm, hp, hn⟩, hbelow, _⟩ := h
  obtain ⟨hle, d, hdm, hdt, hdk⟩ := hd
  refine ⟨⟨?_, ?_, ?_⟩, ?_, ?_⟩
  · simp only
    rw [hdm, hdt, lexerMsgsOf_append, lexerMsgsOf_mapLex, hm]
  · simp only
    rw [hdt, engineMsgsOf_append, engineMsgsOf_mapLex, List.append_nil, hp]
  · simp only
    rw [hdt]
    apply noLateTie_append_lex_batch hn
    intro e he hesrc m hmd
    have hmem : e.msg ∈ s.pmessages := by
      rw [hp]
      exact mem_engineMsgsOf.mpr ⟨e, he, hesrc, rfl⟩
    exact ne_of_keyLt
      (keyLt_of_keyLt_of_keyLe (hbelow e.msg hmem) (hdk m hmd))
  · intro m hm
    exact keyLt_of_keyLt_of_keyLe (hbelow m hm) hle
  · intro t ht
    simp only at ht
    rw [hsv] at ht
    exact absurd ht (by simp)

/-- What `nextTokenBare` guarantees: invariants as in `ResOk`, and a
delivered token starts strictly before the new scan position. -/
def NTOut (s : PState) : ERes Token → Prop
  | ERes.ok s' t =>
    EngineInv s' ∧ keyLe (scanKey s.tok) (scanKey s'.tok) = true ∧
      keyLt (t.line, t.pos) (scanKey s'.tok) = true
  | ERes.perr s' => WeakInv s'
  | ERes.crash s' _ => WeakInv s'
  | ERes.noFuel s' => WeakInv s'

theorem nextTokenBare_spec (s : PState) (h : EngineInv s) :
    NTOut s (nextTokenBare s) := by
  rw [nextTokenBare, nextToken]
  cases hsv : s.saved with
  | some t =>
    dsimp only
    refine ⟨?_, keyLe_refl _, h.2.2 t hsv⟩
    obtain ⟨hw, hbelow, _⟩ := h
    exact ⟨hw, hbelow, by simp⟩
  | none =>
    dsimp only
    have hts := tokNext_spec s.tok
    cases hr : tokNext s.tok with
    | tok tk t =>
      rw [hr] at hts
      dsimp only
      have hp := pull_inv h hsv hts.1
      rw [hsv] at hp
      exact ⟨hp, hts.1.1, hts.2⟩
    | stop tk =>
      rw [hr] at hts
      dsimp only
      have hp := pull_inv h hsv hts
      rw [hsv] at hp
      exact perrAppend_weak _ _ _ hp.1
    | perror tk =>
      rw [hr] at hts
      dsimp only
      have hp := pull_inv h hsv hts
      rw [hsv] at hp
      exact hp.1
    | crash tk e =>
      rw [hr] at hts
      dsimp only
      have hp := pull_inv h hsv hts
      rw [hsv] at hp
      exact hp.1
    | noFuel tk =>
      rw [hr] at hts
      dsimp only
      have hp := pull_inv h hsv hts
      rw [hsv] at hp
      exact hp.1

/-- `NTOut` implies the plain call contract. -/
theorem ntOut_resOk {s : PState} {r : ERes Token} (h : NTOut s r) : ResOk s r := by
  cases r with
  | ok s' t => exact ⟨h.1, h.2.1⟩
  | perr s' => exact h
  | crash s' e => exact h
  | noFuel s' => exact h

theorem resOk_mono {α : Type} {s₀ s₁ : PState}
    (hle : keyLe (scanKey s₀.tok) (scanKey s₁.tok) = true) {r : ERes α}
    (h : ResOk s₁ r) : ResOk s₀ r := by
  cases r with
  | ok s' a => exact ⟨h.1, keyLe_trans hle h.2⟩
  | perr s' => exact h
  | crash s' e => exact h
  | noFuel s' => exact h

theorem resOk_bind {α β : Type} {s : PState} {r : ERes α} {f : PState → α → ERes β}
    (h1 : ResOk s r) (h2 : ∀ s' a, r = ERes.ok s' a → ResOk s' (f s' a)) :
    ResOk s (r.bind f) := by
  cases r with
  | ok s' a => exact resOk_mono h1.2 (h2 s' a rfl)
  | perr s' => exact h1
  | crash s' e => exact h1
  | noFuel s' => exact h1

theorem resOk_ok_refl {α : Type} {s : PState} (h : EngineInv s) (a : α) :
    ResOk s (ERes.ok s a) :=
  ⟨h, keyLe_refl _⟩

theorem scanKey_pwarn (s : PState) (l p : Nat) (m : String) :
    scanKey (pwarn s l p m).tok = scanKey s.tok := rfl

theorem scanKey_pushBack (s : PState) (t : Token) :
    scanKey (pushBack s t).tok = scanKey s.tok := rfl

theorem ntOut_mono {s₀ s₁ : PState}
    (hle : keyLe (scanKey s₀.tok) (scanKey s₁.tok) = true) {r : ERes Token}
    (h : NTOut s₁ r) : NTOut s₀ r := by
  cases r with
  | ok s' t => exact ⟨h.1, keyLe_trans hle h.2.1, h.2.2⟩
  | perr s' => exact h
  | crash s' e => exact h
  | noFuel s' => exact h

theorem resOk_bind_inv {α β : Type} {s : PState} {r : ERes α} {f : PState → α → ERes β}
    (h1 : ResOk s r)
    (h2 : ∀ s' a, EngineInv s' → keyLe (scanKey s.tok) (scanKey s'.tok) = true →
      ResOk s' (f s' a)) :
    ResOk s (r.bind f) := by
  cases r with
  | ok s' a => exact resOk_mono h1.2 (h2 s' a h1.1 h1.2)
  | perr s' => exact h1
  | crash s' e => exact h1
  | noFuel s' => exact h1

theorem ntOut_bind {β : Type} {s : PState} {r : ERes Token} {f : PState → Token → ERes β}
    (h : NTOut s r)
    (h2 : ∀ s' t, EngineInv s' → keyLt (t.line, t.pos) (scanKey s'.tok) = true →
      ResOk s' (f s' t)) :
    ResOk s (r.bind f) := by
  cases r with
  | ok s' t => exact resOk_mono h.2.1 (h2 s' t h.1 h.2.2)
  | perr s' => exact h
  | crash s' e => exact h
  | noFuel s' => exact h

theorem ntOut_bind_pull {s : PState} {r : ERes Unit}
    (h1 : ResOk s r) : NTOut s (r.bind fun s2 _ => nextTokenBare s2) := by
  cases r with
  | ok s' a => exact ntOut_mono h1.2 (nextTokenBare_spec s' h1.1)
  | perr s' => exact h1
  | crash s' e => exact h1
  | noFuel s' => exact h1

theorem pwarnIf_inv (c : Bool) {s : PState} {l p : Nat} (m : String) (h : EngineInv s)
    (htk : keyLt (l, p) (scanKey s.tok) = true) :
    EngineInv (if c then pwarn s l p m else s) := by
  cases c
  · simpa using h
  · simpa using pwarn_inv m h htk

theorem scanKey_pwarnIf (c : Bool) (s : PState) (l p : Nat) (m : String) :
    scanKey (if c then pwarn s l p m else s).tok = scanKey s.tok := by
  cases c <;> rfl

theorem validateNumber_resOk (objectName pn : String) (t : Token) {s : PState}
    (h : EngineInv s) (htk : keyLt (t.line, t.pos) (scanKey s.tok) = true) :
    ResOk s (validateNumber objectName pn t s) := by
  rw [validateNumber]
  split
  · cases t.value with
    | num q =>
      dsimp only
      split
      · exact ⟨pwarn_inv _ h htk, keyLe_refl _⟩
      · exact resOk_ok_refl h ()
    | none => exact h.1
    | str v => exact h.1
    | bool b => exact h.1
  · split
    · split
      · cases t.value with
        | num q =>
          dsimp only
          split
          · exact ⟨pwarn_inv _ h htk, keyLe_refl _⟩
          · exact resOk_ok_refl h ()
        | none => exact h.1
        | str v => exact h.1
        | bool b => exact h.1
      · split
        · cases t.value with
          | num q =>
            dsimp only
            split
            · exact ⟨pwarn_inv _ h htk, keyLe_refl _⟩
            · exact resOk_ok_refl h ()
          | none => exact h.1
          | str v => exact h.1
          | bool b => exact h.1
        · exact resOk_ok_refl h ()
    · exact resOk_ok_refl h ()

theorem validateString_resOk (objectName pn : String) (t : Token) {s : PState}
    (h : EngineInv s) (htk : keyLt (t.line, t.pos) (scanKey s.tok) = true) :
    ResOk s (validateString objectName pn t s) := by
  rw [validateString]
  split
  · cases t.value with
    | str v =>
      dsimp only
      split
      · exact ⟨pwarn_inv _ h htk, keyLe_refl _⟩
      · exact resOk_ok_refl h ()
    | none => exact h.1
    | bool b => exact h.1
    | num q => exact h.1
  · split
    · cases t.value with
      | str v =>
        dsimp only
        split
        · exact ⟨pwarn_inv _ h htk, keyLe_refl _⟩
        · exact resOk_ok_refl h ()
      | none => exact h.1
      | bool b => exact h.1
      | num q => exact h.1
    · exact resOk_ok_refl h ()

/-! ## The engine walk preserves the invariant -/

theorem skipStructureLoop_resOk (gp : String → Option PropMap) :
    ∀ (fuel : Nat) (stack : List TokenKind) (s : PState), EngineInv s →
      ResOk s (skipStructureLoop gp stack fuel s) := by
  intro fuel
  induction fuel with
  | zero =>
    intro stack s hs
    rw [skipStructureLoop.eq_def]
    exact hs.1
  | succ f ih =>
    intro stack s hs
    rw [skipStructureLoop.eq_def]
    cases stack with
    | nil => exact resOk_ok_refl hs ()
    | cons top rest =>
      dsimp only
      apply resOk_bind (ntOut_resOk (nextTokenBare_spec s hs))
      intro s1 t hr
      have hnb := nextTokenBare_spec s hs
      rw [hr] at hnb
      obtain ⟨hs1, hmono, htk⟩ := hnb
      cases t.kind with
      | START_OBJECT => exact ih _ s1 hs1
      | START_ARRAY => exact ih _ s1 hs1
      | START_UNITS => exact ih _ s1 hs1
      | END_OBJECT =>
        dsimp only
        split
        · exact perrAppend_weak _ _ _ hs1.1
        · exact ih rest s1 hs1
      | END_ARRAY =>
        dsimp only
        split
        · exact perrAppend_weak _ _ _ hs1.1
        · exact ih rest s1 hs1
      | END_UNITS =>
        dsimp only
        split
        · exact perrAppend_weak _ _ _ hs1.1
        · exact ih rest s1 hs1
      | NAME => exact ih _ s1 hs1
      | BOOLEAN => exact ih _ s1 hs1
      | STRING => exact ih _ s1 hs1
      | NUMBER => exact ih _ s1 hs1
      | EQUALS => exact ih _ s1 hs1
      | BAR => exact ih _ s1 hs1

theorem skipValue_resOk (gp : String → Option PropMap) (fuel : Nat) {s : PState}
    (hs : EngineInv s) : ResOk s (skipValue gp fuel s) := by
  cases fuel with
  | zero =>
    rw [skipValue.eq_def]
    exact hs.1
  | succ f =>
    rw [skipValue.eq_def]
    dsimp only
    apply ntOut_bind (nextTokenBare_spec s hs)
    intro s1 t0 hs1 htk0
    dsimp only
    refine ntOut_bind ?_ ?_
    · split
      · exact ntOut_bind_pull (skipStructureLoop_resOk gp f _ s1 hs1)
      · exact ⟨hs1, keyLe_refl _, htk0⟩
    · intro s2 t hs2 htk2
      cases t.kind with
      | START_OBJECT => exact skipStructureLoop_resOk gp f _ s2 hs2
      | START_ARRAY => exact skipStructureLoop_resOk gp f _ s2 hs2
      | START_UNITS =>
        exact resOk_mono (keyLe_refl _)
          (skipStructureLoop_resOk gp f _ _ (pwarn_inv _ hs2 htk2))
      | NAME => exact ⟨pushBack_inv hs2 htk2, keyLe_refl _⟩
      | END_OBJECT => exact ⟨pushBack_inv hs2 htk2, keyLe_refl _⟩
      | END_ARRAY => exact perrAppend_weak _ _ _ hs2.1
      | END_UNITS => exact perrAppend_weak _ _ _ hs2.1
      | BOOLEAN => exact resOk_ok_refl hs2 ()
      | STRING => exact resOk_ok_refl hs2 ()
      | NUMBER => exact resOk_ok_refl hs2 ()
      | EQUALS => exact resOk_ok_refl hs2 ()
      | BAR => exact resOk_ok_refl hs2 ()

theorem checkSphericalUnitsLoop_resOk (gp : String → Option PropMap) :
    ∀ (fuel : Nat) (hasAngle hasLength : Bool) (s : PState), EngineInv s →
      ResOk s (checkSphericalUnitsLoop gp hasAngle hasLength fuel s) := by
  intro fuel
  induction fuel with
  | zero =>
    intro ha hl s hs
    rw [checkSphericalUnitsLoop.eq_def]
    exact hs.1
  | succ f ih =>
    intro ha hl s hs
    rw [checkSphericalUnitsLoop.eq_def]
    dsimp only
    apply ntOut_bind (nextTokenBare_spec s hs)
    intro s1 t hs1 htk
    cases t.kind with
    | NAME =>
      dsimp only
      cases unitTypesGet (pyStrValue t.value) with
      | none => exact resOk_mono (keyLe_refl _) (ih ha hl _ (pwarn_inv _ hs1 htk))
      | some u =>
        cases u with
        | ANGLE =>
          dsimp only
          split
          · exact resOk_mono (keyLe_refl _) (ih ha hl _ (pwarn_inv _ hs1 htk))
          · exact ih true hl s1 hs1
        | LENGTH =>
          dsimp only
          split
          · exact resOk_mono (keyLe_refl _) (ih ha hl _ (pwarn_inv _ hs1 htk))
          · exact ih ha true s1 hs1
        | TIME => exact resOk_mono (keyLe_refl _) (ih ha hl _ (pwarn_inv _ hs1 htk))
        | MASS => exact resOk_mono (keyLe_refl _) (ih ha hl _ (pwarn_inv _ hs1 htk))
        | SPHERICAL => exact resOk_mono (keyLe_refl _) (ih ha hl _ (pwarn_inv _ hs1 htk))
    | END_UNITS =>
      dsimp only
      refine ⟨pwarnIf_inv _ _ (pwarnIf_inv _ _ hs1 htk) ?_, ?_⟩
      · rw [scanKey_pwarnIf]
        exact htk
      · rw [scanKey_pwarnIf, scanKey_pwarnIf]
        exact keyLe_refl _
    | START_ARRAY =>
      refine resOk_bind_inv
        (resOk_mono (keyLe_refl _)
          (skipStructureLoop_resOk gp f _ _ (pwarn_inv _ hs1 htk))) ?_
      intro s2 a hs2 hm2
      exact ih ha hl s2 hs2
    | START_OBJECT =>
      refine resOk_bind_inv
        (resOk_mono (keyLe_refl _)
          (skipStructureLoop_resOk gp f _ _ (pwarn_inv _ hs1 htk))) ?_
      intro s2 a hs2 hm2
      exact ih ha hl s2 hs2
    | START_UNITS =>
      refine resOk_bind_inv
        (resOk_mono (keyLe_refl _)
          (skipStructureLoop_resOk gp f _ _ (pwarn_inv _ hs1 htk))) ?_
      intro s2 a hs2 hm2
      exact ih ha hl s2 hs2
    | END_ARRAY => exact perrAppend_weak _ _ _ hs1.1
    | END_OBJECT => exact perrAppend_weak _ _ _ hs1.1
    | BOOLEAN => exact resOk_mono (keyLe_refl _) (ih ha hl _ (pwarn_inv _ hs1 htk))
    | STRING => exact resOk_mono (keyLe_refl _) (ih ha hl _ (pwarn_inv _ hs1 htk))
    | NUMBER => exact resOk_mono (keyLe_refl _) (ih ha hl _ (pwarn_inv _ hs1 htk))
    | EQUALS => exact resOk_mono (keyLe_refl _) (ih ha hl _ (pwarn_inv _ hs1 htk))
    | BAR => exact resOk_mono (keyLe_refl _) (ih ha hl _ (pwarn_inv _ hs1 htk))

theorem checkUnitsLoop_resOk (gp : String → Option PropMap) :
    ∀ (fuel : Nat) (expectedUnits : UnitsType) (hasUnit : Bool) (s : PState),
      EngineInv s → ResOk s (checkUnitsLoop gp expectedUnits hasUnit fuel s) := by
  intro fuel
  induction fuel with
  | zero =>
    intro eu hu s hs
    rw [checkUnitsLoop.eq_def]
    exact hs.1
  | succ f ih =>
    intro eu hu s hs
    rw [checkUnitsLoop.eq_def]
    dsimp only
    apply ntOut_bind (nextTokenBare_spec s hs)
    intro s1 t hs1 htk
    cases t.kind with
    | NAME =>
      dsimp only
      cases unitTypesGet (pyStrValue t.value) with
      | none => exact resOk_mono (keyLe_refl _) (ih eu true _ (pwarn_inv _ hs1 htk))
      | some u =>
        dsimp only
        split
        · exact resOk_mono (keyLe_refl _) (ih eu true _ (pwarn_inv _ hs1 htk))
        · split
          · exact resOk_mono (keyLe_refl _) (ih eu true _ (pwarn_inv _ hs1 htk))
          · exact ih eu true s1 hs1
    | END_UNITS =>
      dsimp only
      refine ⟨pwarnIf_inv _ _ hs1 htk, ?_⟩
      rw [scanKey_pwarnIf]
      exact keyLe_refl _
    | START_ARRAY =>
      refine resOk_bind_inv
        (resOk_mono (keyLe_refl _)
          (skipStructureLoop_resOk gp f _ _ (pwarn_inv _ hs1 htk))) ?_
      intro s2 a hs2 hm2
      exact ih eu hu s2 hs2
    | START_OBJECT =>
      refine resOk_bind_inv
        (resOk_mono (keyLe_refl _)
          (skipStructureLoop_resOk gp f _ _ (pwarn_inv _ hs1 htk))) ?_
      intro s2 a hs2 hm2
      exact ih eu hu s2 hs2
    | START_UNITS =>
      refine resOk_bind_inv
        (resOk_mono (keyLe_refl _)
          (skipStructureLoop_resOk gp f _ _ (pwarn_inv _ hs1 htk))) ?_
      intro s2 a hs2 hm2
      exact ih eu hu s2 hs2
    | END_ARRAY => exact perrAppend_weak _ _ _ hs1.1
    | END_OBJECT => exact perrAppend_weak _ _ _ hs1.1
    | BOOLEAN => exact resOk_mono (keyLe_refl _) (ih eu hu _ (pwarn_inv _ hs1 htk))
    | STRING => exact resOk_mono (keyLe_refl _) (ih eu hu _ (pwarn_inv _ hs1 htk))
    | NUMBER => exact resOk_mono (keyLe_refl _) (ih eu hu _ (pwarn_inv _ hs1 htk))
    | EQUALS => exact resOk_mono (keyLe_refl _) (ih eu hu _ (pwarn_inv _ hs1 htk))
    | BAR => exact resOk_mono (keyLe_refl _) (ih eu hu _ (pwarn_inv _ hs1 htk))

theorem checkUnits_resOk (gp : String → Option PropMap) (fuel : Nat) (u : UnitsType)
    {s : PState} (hs : EngineInv s) : ResOk s (checkUnits gp u fuel s) := by
  cases fuel with
  | zero =>
    rw [checkUnits.eq_def]
    exact hs.1
  | succ f =>
    rw [checkUnits.eq_def]
    dsimp only
    split
    · exact checkSphericalUnitsLoop_resOk gp f false false s hs
    · exact checkUnitsLoop_resOk gp f u false s hs

theorem checkVectorLoop_resOk (gp : String → Option PropMap) :
    ∀ (fuel : Nat) (propertyName : String) (elementCount : ElemCount)
      (numElements : Nat) (s : PState), EngineInv s →
      ResOk s (checkVectorLoop gp propertyName elementCount numElements fuel s) := by
  intro fuel
  induction fuel with
  | zero =>
    intro pn ec ne s hs
    rw [checkVectorLoop.eq_def]
    exact hs.1
  | succ f ih =>
    intro pn ec ne s hs
    rw [checkVectorLoop.eq_def]
    dsimp only
    apply ntOut_bind (nextTokenBare_spec s hs)
    intro s1 t hs1 htk
    cases t.kind with
    | NUMBER =>
      refine resOk_bind_inv (validateNumber_resOk pn _ t hs1 htk) ?_
      intro s2 a hs2 hm2
      exact ih pn ec (ne + 1) s2 hs2
    | END_ARRAY =>
      dsimp only
      split
      · exact resOk_ok_refl hs1 ()
      · cases ec with
        | int n => exact hs1.1
        | pair a b =>
          dsimp only
          split
          · exact resOk_ok_refl hs1 ()
          · exact ⟨pwarn_inv _ hs1 htk, keyLe_refl _⟩
    | START_ARRAY =>
      refine resOk_bind_inv
        (resOk_mono (keyLe_refl _)
          (skipStructureLoop_resOk gp f _ _ (pwarn_inv _ hs1 htk))) ?_
      intro s2 a hs2 hm2
      exact ih pn ec ne s2 hs2
    | START_OBJECT =>
      refine resOk_bind_inv
        (resOk_mono (keyLe_refl _)
          (skipStructureLoop_resOk gp f _ _ (pwarn_inv _ hs1 htk))) ?_
      intro s2 a hs2 hm2
      exact ih pn ec ne s2 hs2
    | START_UNITS =>
      refine resOk_bind_inv
        (resOk_mono (keyLe_refl _)
          (skipStructureLoop_resOk gp f _ _ (pwarn_inv _ hs1 htk))) ?_
      intro s2 a hs2 hm2
      exact ih pn ec ne s2 hs2
    | END_OBJECT => exact perrAppend_weak _ _ _ hs1.1
    | END_UNITS => exact perrAppend_weak _ _ _ hs1.1
    | NAME => exact resOk_mono (keyLe_refl _) (ih pn ec ne _ (pwarn_inv _ hs1 htk))
    | BOOLEAN => exact resOk_mono (keyLe_refl _) (ih pn ec ne _ (pwarn_inv _ hs1 htk))
    | STRING => exact resOk_mono (keyLe_refl _) (ih pn ec ne _ (pwarn_inv _ hs1 htk))
    | EQUALS => exact resOk_mono (keyLe_refl _) (ih pn ec ne _ (pwarn_inv _ hs1 htk))
    | BAR => exact resOk_mono (keyLe_refl _) (ih pn ec ne _ (pwarn_inv _ hs1 htk))

theorem checkStringListLoop_resOk (gp : String → Option PropMap) :
    ∀ (fuel : Nat) (propertyName : String) (s : PState), EngineInv s →
      ResOk s (checkStringListLoop gp propertyName fuel s) := by
  intro fuel
  induction fuel with
  | zero =>
    intro pn s hs
    rw [checkStringListLoop.eq_def]
    exact hs.1
  | succ f ih =>
    intro pn s hs
    rw [checkStringListLoop.eq_def]
    dsimp only
    apply ntOut_bind (nextTokenBare_spec s hs)
    intro s1 t hs1 htk
    cases t.kind with
    | STRING =>
      refine resOk_bind_inv (validateString_resOk pn _ t hs1 htk) ?_
      intro s2 a hs2 hm2
      exact ih pn s2 hs2
    | END_ARRAY => exact resOk_ok_refl hs1 ()
    | START_ARRAY =>
      refine resOk_bind_inv
        (resOk_mono (keyLe_refl _)
          (skipStructureLoop_resOk gp f _ _ (pwarn_inv _ hs1 htk))) ?_
      intro s2 a hs2 hm2
      exact ih pn s2 hs2
    | START_OBJECT =>
      refine resOk_bind_inv
        (resOk_mono (keyLe_refl _)
          (skipStructureLoop_resOk gp f _ _ (pwarn_inv _ hs1 htk))) ?_
      intro s2 a hs2 hm2
      exact ih pn s2 hs2
    | START_UNITS =>
      refine resOk_bind_inv
        (resOk_mono (keyLe_refl _)
          (skipStructureLoop_resOk gp f _ _ (pwarn_inv _ hs1 htk))) ?_
      intro s2 a hs2 hm2
      exact ih pn s2 hs2
    | END_OBJECT => exact perrAppend_weak _ _ _ hs1.1
    | END_UNITS => exact perrAppend_weak _ _ _ hs1.1
    | NAME => exact resOk_mono (keyLe_refl _) (ih pn _ (pwarn_inv _ hs1 htk))
    | BOOLEAN => exact resOk_mono (keyLe_refl _) (ih pn _ (pwarn_inv _ hs1 htk))
    | NUMBER => exact resOk_mono (keyLe_refl _) (ih pn _ (pwarn_inv _ hs1 htk))
    | EQUALS => exact resOk_mono (keyLe_refl _) (ih pn _ (pwarn_inv _ hs1 htk))
    | BAR => exact resOk_mono (keyLe_refl _) (ih pn _ (pwarn_inv _ hs1 htk))

theorem engine_resOk (gp : String → Option PropMap) :
    ∀ fuel : Nat,
      (∀ (objName pn : String) (dt : DataType) (ut : Option UnitsType) (s : PState),
        EngineInv s → ResOk s (checkValue gp objName pn dt ut fuel s)) ∧
      (∀ (objName : String) (openTok : Token) (props : PropMap) (disp : Disposition)
        (parsed : List String) (s : PState), EngineInv s →
        ResOk s (checkObjectLoop gp objName openTok props disp parsed fuel s)) ∧
      (∀ (objName : String) (props : PropMap) (s : PState), EngineInv s →
        ResOk s (checkObjectListLoop gp objName props fuel s)) := by
  intro fuel
  induction fuel with
  | zero =>
    refine ⟨?_, ?_, ?_⟩
    · intro objName pn dt ut s hs
      rw [checkValue.eq_def]
      exact hs.1
    · intro objName openTok props disp parsed s hs
      rw [checkObjectLoop.eq_def]
      exact hs.1
    · intro objName props s hs
      rw [checkObjectListLoop.eq_def]
      exact hs.1
  | succ f ih =>
    obtain ⟨ihCV, ihCOL, ihCLL⟩ := ih
    refine ⟨?_, ?_, ?_⟩
    · intro objName pn dt ut s hs
      rw [checkValue.eq_def]
      dsimp only
      apply ntOut_bind (nextTokenBare_spec s hs)
      intro s1 t0 hs1 htk0
      dsimp only
      refine ntOut_bind ?_ ?_
      · split
        · refine ntOut_bind_pull ?_
          cases ut with
          | none =>
            exact resOk_mono (keyLe_refl _)
              (skipStructureLoop_resOk gp f _ _ (pwarn_inv _ hs1 htk0))
          | some u => exact checkUnits_resOk gp f u hs1
        · exact ⟨hs1, keyLe_refl _, htk0⟩
      · intro s2 token hs2 htk2
        split
        · exact perrAppend_weak _ _ _ hs2.1
        · split
          · exact ⟨pushBack_inv (pwarn_inv _ hs2 htk2) htk2, keyLe_refl _⟩
          · refine resOk_bind_inv ?_ ?_
            · cases dt with
              | BOOLEAN =>
                dsimp only
                split
                · exact ⟨pwarn_inv _ hs2 htk2, keyLe_refl _⟩
                · exact resOk_ok_refl hs2 true
              | NUMBER =>
                dsimp only
                split
                · refine resOk_bind_inv (validateNumber_resOk objName pn token hs2 htk2) ?_
                  intro s3 a hs3 hm3
                  exact resOk_ok_refl hs3 true
                · exact ⟨pwarn_inv _ hs2 htk2, keyLe_refl _⟩
              | VECTOR =>
                dsimp only
                split
                · refine resOk_bind_inv (checkVectorLoop_resOk gp f pn _ 0 s2 hs2) ?_
                  intro s3 a hs3 hm3
                  exact resOk_ok_refl hs3 true
                · exact ⟨pwarn_inv _ hs2 htk2, keyLe_refl _⟩
              | QUATERNION =>
                dsimp only
                split
                · refine resOk_bind_inv (checkVectorLoop_resOk gp f pn _ 0 s2 hs2) ?_
                  intro s3 a hs3 hm3
                  exact resOk_ok_refl hs3 true
                · exact ⟨pwarn_inv _ hs2 htk2, keyLe_refl _⟩
              | STRING =>
                dsimp only
                split
                · refine resOk_bind_inv (validateString_resOk objName pn token hs2 htk2) ?_
                  intro s3 a hs3 hm3
                  exact resOk_ok_refl hs3 true
                · exact ⟨pwarn_inv _ hs2 htk2, keyLe_refl _⟩
              | OBJECT =>
                dsimp only
                split
                · cases gp pn with
                  | none => exact hs2.1
                  | some props =>
                    refine resOk_bind_inv
                      (ihCOL pn token props Disposition.ADD [] s2 hs2) ?_
                    intro s3 a hs3 hm3
                    exact resOk_ok_refl hs3 true
                · exact ⟨pwarn_inv _ hs2 htk2, keyLe_refl _⟩
              | DATE =>
                dsimp only
                split
                · cases token.value with
                  | str v =>
                    dsimp only
                    split
                    · exact ⟨pwarn_inv _ hs2 htk2, keyLe_refl _⟩
                    · exact resOk_ok_refl hs2 true
                  | none => exact hs2.1
                  | bool b => exact hs2.1
                  | num q => exact hs2.1
                · split
                  · exact ⟨pwarn_inv _ hs2 htk2, keyLe_refl _⟩
                  · exact resOk_ok_refl hs2 true
              | NUMBER_OR_STRING =>
                dsimp only
                split
                · refine resOk_bind_inv (validateNumber_resOk objName pn token hs2 htk2) ?_
                  intro s3 a hs3 hm3
                  exact resOk_ok_refl hs3 true
                · split
                  · refine resOk_bind_inv
                      (validateString_resOk objName pn token hs2 htk2) ?_
                    intro s3 a hs3 hm3
                    exact resOk_ok_refl hs3 true
                  · exact ⟨pwarn_inv _ hs2 htk2, keyLe_refl _⟩
              | STRING_LIST =>
                dsimp only
                split
                · refine resOk_bind_inv (checkStringListLoop_resOk gp f pn s2 hs2) ?_
                  intro s3 a hs3 hm3
                  exact resOk_ok_refl hs3 true
                · split
                  · exact ⟨pwarn_inv _ hs2 htk2, keyLe_refl _⟩
                  · exact resOk_ok_refl hs2 true
              | OBJECT_LIST =>
                dsimp only
                split
                · cases gp pn with
                  | none => exact hs2.1
                  | some props =>
                    refine resOk_bind_inv (ihCLL pn props s2 hs2) ?_
                    intro s3 a hs3 hm3
                    exact resOk_ok_refl hs3 true
                · exact ⟨pwarn_inv _ hs2 htk2, keyLe_refl _⟩
              | VECTOR_OR_OBJECT =>
                dsimp only
                split
                · refine resOk_bind_inv (checkVectorLoop_resOk gp f pn _ 0 s2 hs2) ?_
                  intro s3 a hs3 hm3
                  exact resOk_ok_refl hs3 true
                · split
                  · cases gp pn with
                    | none => exact hs2.1
                    | some props =>
                      refine resOk_bind_inv
                        (ihCOL pn token props Disposition.ADD [] s2 hs2) ?_
                      intro s3 a hs3 hm3
                      exact resOk_ok_refl hs3 true
                  · exact ⟨pwarn_inv _ hs2 htk2, keyLe_refl _⟩
              | COLOR =>
                dsimp only
                split
                · cases token.value with
                  | str v =>
                    dsimp only
                    split
                    · exact ⟨pwarn_inv _ hs2 htk2, keyLe_refl _⟩
                    · exact resOk_ok_refl hs2 true
                  | none => exact hs2.1
                  | bool b => exact hs2.1
                  | num q => exact hs2.1
                · split
                  · refine resOk_bind_inv
                      (checkVectorLoop_resOk gp f _ _ 0 s2 hs2) ?_
                    intro s3 a hs3 hm3
                    exact resOk_ok_refl hs3 true
                  · exact ⟨pwarn_inv _ hs2 htk2, keyLe_refl _⟩
            · intro s3 isMatch hs3 hm23
              dsimp only
              split
              · exact resOk_ok_refl hs3 ()
              · split
                · exact resOk_mono (keyLe_refl _)
                    (skipValue_resOk gp f
                      (pushBack_inv hs3 (keyLt_of_keyLt_of_keyLe htk2 hm23)))
                · exact ⟨pushBack_inv hs3 (keyLt_of_keyLt_of_keyLe htk2 hm23),
                    keyLe_refl _⟩
    · intro objName openTok props disp parsed s hs
      rw [checkObjectLoop.eq_def]
      dsimp only
      apply ntOut_bind (nextTokenBare_spec s hs)
      intro s1 t hs1 htk
      cases t.kind with
      | NAME =>
        dsimp only
        cases lookupProp props (pyStrValue t.value) with
        | none =>
          dsimp only
          split
          · dsimp only
            refine resOk_bind_inv
              (resOk_mono (keyLe_refl _)
                (skipValue_resOk gp f (pwarn_inv _ (pwarn_inv _ hs1 htk) htk))) ?_
            intro s3 a hs3 hm3
            exact ihCOL objName openTok props disp _ s3 hs3
          · dsimp only
            refine resOk_bind_inv
              (resOk_mono (keyLe_refl _)
                (skipValue_resOk gp f (pwarn_inv _ hs1 htk))) ?_
            intro s3 a hs3 hm3
            exact ihCOL objName openTok props disp _ s3 hs3
        | some pd =>
          obtain ⟨dt2, ut2⟩ := pd
          dsimp only
          split
          · dsimp only
            refine resOk_bind_inv
              (resOk_mono (keyLe_refl _)
                (ihCV objName _ dt2 ut2 _ (pwarn_inv _ hs1 htk))) ?_
            intro s3 a hs3 hm3
            exact ihCOL objName openTok props disp _ s3 hs3
          · dsimp only
            refine resOk_bind_inv (ihCV objName _ dt2 ut2 s1 hs1) ?_
            intro s3 a hs3 hm3
            exact ihCOL objName openTok props disp _ s3 hs3
      | END_OBJECT =>
        dsimp only
        exact resOk_ok_refl hs1 ()
      | END_ARRAY => exact perrAppend_weak _ _ _ hs1.1
      | END_UNITS => exact perrAppend_weak _ _ _ hs1.1
      | START_OBJECT =>
        refine resOk_bind_inv
          (resOk_mono (keyLe_refl _)
            (skipValue_resOk gp f (pushBack_inv (pwarn_inv _ hs1 htk) htk))) ?_
        intro s2 a hs2 hm2
        exact ihCOL objName openTok props disp parsed s2 hs2
      | START_ARRAY =>
        refine resOk_bind_inv
          (resOk_mono (keyLe_refl _)
            (skipValue_resOk gp f (pushBack_inv (pwarn_inv _ hs1 htk) htk))) ?_
        intro s2 a hs2 hm2
        exact ihCOL objName openTok props disp parsed s2 hs2
      | START_UNITS =>
        refine resOk_bind_inv
          (resOk_mono (keyLe_refl _)
            (skipValue_resOk gp f (pushBack_inv (pwarn_inv _ hs1 htk) htk))) ?_
        intro s2 a hs2 hm2
        exact ihCOL objName openTok props disp parsed s2 hs2
      | BOOLEAN =>
        refine resOk_bind_inv
          (resOk_mono (keyLe_refl _)
            (skipValue_resOk gp f (pushBack_inv (pwarn_inv _ hs1 htk) htk))) ?_
        intro s2 a hs2 hm2
        exact ihCOL objName openTok props disp parsed s2 hs2
      | STRING =>
        refine resOk_bind_inv
          (resOk_mono (keyLe_refl _)
            (skipValue_resOk gp f (pushBack_inv (pwarn_inv _ hs1 htk) htk))) ?_
        intro s2 a hs2 hm2
        exact ihCOL objName openTok props disp parsed s2 hs2
      | NUMBER =>
        refine resOk_bind_inv
          (resOk_mono (keyLe_refl _)
            (skipValue_resOk gp f (pushBack_inv (pwarn_inv _ hs1 htk) htk))) ?_
        intro s2 a hs2 hm2
        exact ihCOL objName openTok props disp parsed s2 hs2
      | EQUALS =>
        refine resOk_bind_inv
          (resOk_mono (keyLe_refl _)
            (skipValue_resOk gp f (pushBack_inv (pwarn_inv _ hs1 htk) htk))) ?_
        intro s2 a hs2 hm2
        exact ihCOL objName openTok props disp parsed s2 hs2
      | BAR =>
        refine resOk_bind_inv
          (resOk_mono (keyLe_refl _)
            (skipValue_resOk gp f (pushBack_inv (pwarn_inv _ hs1 htk) htk))) ?_
        intro s2 a hs2 hm2
        exact ihCOL objName openTok props disp parsed s2 hs2
    · intro objName props s hs
      rw [checkObjectListLoop.eq_def]
      dsimp only
      apply ntOut_bind (nextTokenBare_spec s hs)
      intro s1 t hs1 htk
      cases t.kind with
      | START_OBJECT =>
        refine resOk_bind_inv (ihCOL objName t props Disposition.ADD [] s1 hs1) ?_
        intro s2 a hs2 hm2
        exact ihCLL objName props s2 hs2
      | END_ARRAY => exact resOk_ok_refl hs1 ()
      | END_OBJECT => exact perrAppend_weak _ _ _ hs1.1
      | END_UNITS => exact perrAppend_weak _ _ _ hs1.1
      | NAME =>
        refine resOk_bind_inv
          (resOk_mono (keyLe_refl _)
            (skipValue_resOk gp f (pushBack_inv (pwarn_inv _ hs1 htk) htk))) ?_
        intro s2 a hs2 hm2
        exact ihCLL objName props s2 hs2
      | START_ARRAY =>
        refine resOk_bind_inv
          (resOk_mono (keyLe_refl _)
            (skipValue_resOk gp f (pushBack_inv (pwarn_inv _ hs1 htk) htk))) ?_
        intro s2 a hs2 hm2
        exact ihCLL objName props s2 hs2
      | START_UNITS =>
        refine resOk_bind_inv
          (resOk_mono (keyLe_refl _)
            (skipValue_resOk gp f (pushBack_inv (pwarn_inv _ hs1 htk) htk))) ?_
        intro s2 a hs2 hm2
        exact ihCLL objName props s2 hs2
      | BOOLEAN =>
        refine resOk_bind_inv
          (resOk_mono (keyLe_refl _)
            (skipValue_resOk gp f (pushBack_inv (pwarn_inv _ hs1 htk) htk))) ?_
        intro s2 a hs2 hm2
        exact ihCLL objName props s2 hs2
      | STRING =>
        refine resOk_bind_inv
          (resOk_mono (keyLe_refl _)
            (skipValue_resOk gp f (pushBack_inv (pwarn_inv _ hs1 htk) htk))) ?_
        intro s2 a hs2 hm2
        exact ihCLL objName props s2 hs2
      | NUMBER =>
        refine resOk_bind_inv
          (resOk_mono (keyLe_refl _)
            (skipValue_resOk gp f (pushBack_inv (pwarn_inv _ hs1 htk) htk))) ?_
        intro s2 a hs2 hm2
        exact ihCLL objName props s2 hs2
      | EQUALS =>
        refine resOk_bind_inv
          (resOk_mono (keyLe_refl _)
            (skipValue_resOk gp f (pushBack_inv (pwarn_inv _ hs1 htk) htk))) ?_
        intro s2 a hs2 hm2
        exact ihCLL objName props s2 hs2
      | BAR =>
        refine resOk_bind_inv
          (resOk_mono (keyLe_refl _)
            (skipValue_resOk gp f (pushBack_inv (pwarn_inv _ hs1 htk) htk))) ?_
        intro s2 a hs2 hm2
        exact ihCLL objName props s2 hs2

/-- The weak invariant holds in the final state of every outcome. -/
theorem resOk_weakInv {α : Type} {s : PState} {r : ERes α} (h : ResOk s r) :
    WeakInv r.state := by
  cases r with
  | ok s' a => exact h.1.1
  | perr s' => exact h
  | crash s' e => exact h
  | noFuel s' => exact h

/-- **C5.** For every run of the engine's object walk from a state
satisfying the reachability invariant (in particular from a fresh parser
state), the list returned by the `messages` property is sorted by
`(line, pos)`, and it coincides with the stable insertion sort of the
full chronological emission sequence recorded in the ghost trace: any
two diagnostics with equal `(line, pos)` keys appear in the order in
which they were emitted, for lexer-produced and engine-produced
diagnostics alike. -/
theorem c5_messages_sorted_and_stable (gp : String → Option PropMap)
    (objectName : String) (openTok : Token) (props : PropMap)
    (disp : Disposition) (fuel : Nat) (s : PState) (hs : EngineInv s) :
    ((messagesProp (checkObject gp objectName openTok props disp fuel s).state).Pairwise
      fun a b => keyLe (posKey a) (posKey b) = true) ∧
    messagesProp (checkObject gp objectName openTok props disp fuel s).state =
      sortByPosKey
        (traceMsgsOf
          (checkObject gp objectName openTok props disp fuel s).state.tok.trace) := by
  rw [checkObject]
  have hres := (engine_resOk gp fuel).2.1 objectName openTok props disp [] s hs
  have hw := resOk_weakInv hres
  constructor
  · rw [messagesProp]
    exact sorted_sortByPosKey _
  · exact messagesProp_eq_sorted_trace hw

theorem c5_messages_sorted_and_stable_witness :
    EngineInv (pInit ["Radius 1 x", "\x7d"]) ∧
    (((messagesProp
        (checkObject gpNone "Body" ⟨TokenKind.START_OBJECT, 0, 0, TokenValue.none⟩
          [("Radius", (DataType.NUMBER, some UnitsType.LENGTH))] Disposition.ADD 8
          (pInit ["Radius 1 x", "\x7d"])).state).Pairwise
        fun a b => keyLe (posKey a) (posKey b) = true) ∧
      messagesProp
        (checkObject gpNone "Body" ⟨TokenKind.START_OBJECT, 0, 0, TokenValue.none⟩
          [("Radius", (DataType.NUMBER, some UnitsType.LENGTH))] Disposition.ADD 8
          (pInit ["Radius 1 x", "\x7d"])).state =
        sortByPosKey
          (traceMsgsOf
            (checkObject gpNone "Body" ⟨TokenKind.START_OBJECT, 0, 0, TokenValue.none⟩
              [("Radius", (DataType.NUMBER, some UnitsType.LENGTH))] Disposition.ADD 8
              (pInit ["Radius 1 x", "\x7d"])).state.tok.trace)) :=
  ⟨⟨⟨rfl, rfl, List.Pairwise.nil⟩, by simp [pInit, tokInit], by simp [pInit]⟩,
    c5_messages_sorted_and_stable gpNone "Body"
      ⟨TokenKind.START_OBJECT, 0, 0, TokenValue.none⟩
      [("Radius", (DataType.NUMBER, some UnitsType.LENGTH))] Disposition.ADD 8
      (pInit ["Radius 1 x", "\x7d"])
      ⟨⟨rfl, rfl, List.Pairwise.nil⟩, by simp [pInit, tokInit], by simp [pInit]⟩⟩

end CelValidate
